import Mathlib

/-!
Verification development for the "hotfix" route-scoring and loop-generation
engine.  The TypeScript sources are embedded shallowly: pure functions become
Lean functions over `ℚ`/`ℤ`/`String`, the transcendental haversine distance is
abstracted as an explicit function parameter (`Hav`), and fallible network
code is modelled by explicit outcome types.  Definitions follow the source
files `floorability.ts`, `loopRouter.ts` (second revision), `osrm.ts`,
`mapbox.ts` and `routeStore.ts`.
-/

namespace Hotfix

/-- JavaScript `Math.round`: round half toward positive infinity,
`Math.round x = ⌊x + 0.5⌋`. -/
def jsRound (q : ℚ) : ℤ := ⌊q + 1/2⌋

/-- Display-string rendering of a rational with one decimal digit, standing in
for JavaScript `Number.prototype.toFixed(1)` (used only to build human-readable
labels, never in any scored quantity). -/
def ratToFixed1 (q : ℚ) : String :=
  let n : ℤ := jsRound (q * 10)
  if n < 0 then
    "-" ++ toString ((-n) / 10) ++ "." ++ toString ((-n) % 10)
  else
    toString (n / 10) ++ "." ++ toString (n % 10)

/-- Display-string rendering standing in for `toFixed(0)`. -/
def ratToFixed0 (q : ℚ) : String := toString (jsRound q)

/-- Helper for `strContains`: does the first character list start with the
second one. -/
def startsWithL : List Char → List Char → Bool
  | _, [] => true
  | [], _ :: _ => false
  | a :: s, b :: t => a = b && startsWithL s t

/-- Helper for `strContains`: does `sub` occur as a contiguous run inside the
character list. -/
def containsL (sub : List Char) : List Char → Bool
  | [] => sub.isEmpty
  | a :: l => startsWithL (a :: l) sub || containsL sub l

/-- JavaScript `String.prototype.includes`: `sub` occurs inside `s`. -/
def strContains (s sub : String) : Bool := containsL sub.toList s.toList

/-- Insertion step for the keyed insertion sorts: insert `a` in front of the
first element whose key is strictly larger (ascending variant). -/
def ordInsertAsc {α β : Type} [LinearOrder β] (key : α → β) (a : α) :
    List α → List α
  | [] => [a]
  | b :: l => if key a ≤ key b then a :: b :: l else b :: ordInsertAsc key a l

/-- Stable ascending sort by a key, modelling a JavaScript
`array.sort((x, y) => key x - key y)`. -/
def sortByKeyAsc {α β : Type} [LinearOrder β] (key : α → β) :
    List α → List α
  | [] => []
  | a :: l => ordInsertAsc key a (sortByKeyAsc key l)

/-- Insertion step for the descending keyed insertion sort. -/
def ordInsertDesc {α β : Type} [LinearOrder β] (key : α → β) (a : α) :
    List α → List α
  | [] => [a]
  | b :: l => if key b ≤ key a then a :: b :: l else b :: ordInsertDesc key a l

/-- Stable descending sort by a key, modelling a JavaScript
`array.sort((x, y) => key y - key x)`. -/
def sortByKeyDesc {α β : Type} [LinearOrder β] (key : α → β) :
    List α → List α
  | [] => []
  | a :: l => ordInsertDesc key a (sortByKeyDesc key l)

/-- Route coordinate, `[lng, lat]` in degrees (GeoJSON order). -/
structure Coord where
  lng : ℚ
  lat : ℚ
deriving DecidableEq, Repr

/-- Fallback coordinate used where the TypeScript source would index out of
bounds (never reached on the inputs the pipeline produces). -/
def dummyCoord : Coord := ⟨0, 0⟩

/-- Overpass geometry point, `{lat, lon}` order as returned by the API. -/
structure GeoPt where
  lat : ℚ
  lon : ℚ
deriving DecidableEq, Repr

/-- Abstraction of `haversineDistMi(lat1, lng1, lat2, lng2)`: the concrete
function is transcendental (sin/cos/atan2), so the embedding is parametric in
the distance function, with the same argument order as the source. -/
def Hav : Type := ℚ → ℚ → ℚ → ℚ → ℚ

/-- Translation of `findNearestPoint` (floorability.ts): linear scan keeping
the first strict minimum.  Returns `none` for an empty coordinate list (the
source would report distance `Infinity`, which every caller treats as
"too far"). -/
def findNearestPoint (hav : Hav) (lat lng : ℚ) (coords : List Coord) :
    Option (ℕ × ℚ) :=
  coords.enum.foldl
    (fun acc (p : ℕ × Coord) =>
      let d := hav lat lng p.2.lat p.2.lng
      match acc with
      | none => some (p.1, d)
      | some (mi, md) => if d < md then some (p.1, d) else some (mi, md))
    none

/-- Word character in the sense of the JavaScript regex class `\w`
(`[A-Za-z0-9_]`), used to model the `\b` boundaries of `normalizeRoadName`. -/
def isWordChar (c : Char) : Bool := c.isAlphanum || c = '_'

/-- Whole-word substitutions of `normalizeRoadName` (floorability.ts).  Each
`.replace(/\bword\b/gi, sub)` rewrites exactly the maximal word-character runs
equal to the pattern, so the chain of sixteen replacements is applied here as
one map over word runs (no substitution output matches a later pattern). -/
def roadWordSwap (w : String) : String :=
  if w = "street" then "st"
  else if w = "avenue" then "ave"
  else if w = "boulevard" then "blvd"
  else if w = "drive" then "dr"
  else if w = "road" then "rd"
  else if w = "lane" then "ln"
  else if w = "parkway" then "pkwy"
  else if w = "pky" then "pkwy"
  else if w = "highway" then "hwy"
  else if w = "expressway" then "expy"
  else if w = "turnpike" then "tpk"
  else if w = "tpke" then "tpk"
  else if w = "circle" then "cir"
  else if w = "court" then "ct"
  else if w = "place" then "pl"
  else if w = "terrace" then "ter"
  else w

/-- Apply `f` to every maximal run of word characters, keeping the other
characters in place. -/
def mapWordRuns (f : String → String) : List Char → List Char
  | [] => []
  | c :: rest =>
    if isWordChar c then
      let run := rest.takeWhile isWordChar
      let rest' := rest.dropWhile isWordChar
      (f (String.mk (c :: run))).toList ++ mapWordRuns f rest'
    else
      c :: mapWordRuns f rest
termination_by l => l.length
decreasing_by
  · exact Nat.lt_succ_of_le ((List.dropWhile_suffix _).sublist.length_le)
  · simp

/-- Collapse every maximal whitespace run to a single space, modelling
`.replace(/\s+/g, ' ')`. -/
def collapseSpaces : List Char → List Char
  | [] => []
  | c :: rest =>
    if c.isWhitespace then
      ' ' :: collapseSpaces (rest.dropWhile Char.isWhitespace)
    else
      c :: collapseSpaces rest
termination_by l => l.length
decreasing_by
  · exact Nat.lt_succ_of_le ((List.dropWhile_suffix _).sublist.length_le)
  · simp

/-- Translation of `normalizeRoadName` (floorability.ts): lowercase, rewrite
common road-type abbreviations, strip everything but `[a-z0-9\s]`, collapse
whitespace, trim. -/
def normalizeRoadName (name : String) : String :=
  let lowered := name.toLower.toList
  let swapped := mapWordRuns roadWordSwap lowered
  let kept := swapped.filter
    (fun c => (('a' ≤ c ∧ c ≤ 'z') : Bool) || c.isDigit || c.isWhitespace)
  (String.mk (collapseSpaces kept)).trim

/-- Translation of `roadNamesMatch` (floorability.ts): normalized exact match,
containment for names of length ≥ 5, or at least two shared significant
(length ≥ 3) words. -/
def roadNamesMatch (name1 name2 : String) : Bool :=
  if name1 = "" || name2 = "" then false
  else
    let n1 := normalizeRoadName name1
    let n2 := normalizeRoadName name2
    if n1 = n2 then true
    else if 5 ≤ n1.length && 5 ≤ n2.length
        && (strContains n1 n2 || strContains n2 n1) then true
    else
      let words1 := ((n1.splitOn " ").filter (fun w => 3 ≤ w.length)).dedup
      let words2 := (n2.splitOn " ").filter (fun w => 3 ≤ w.length)
      2 ≤ (words1.filter (fun w => words2.contains w)).length

/-- High-speed road classes that should never carry very low speed limits
(`HIGH_SPEED_HIGHWAY_TYPES` in floorability.ts). -/
def HIGH_SPEED_HIGHWAY_TYPES : List String :=
  ["motorway", "trunk", "motorway_link", "trunk_link", "primary"]

/-- Translation of `minCredibleSpeed` (floorability.ts). -/
def minCredibleSpeed (highway : String) : ℤ :=
  match highway with
  | "motorway" => 40
  | "trunk" => 35
  | "motorway_link" => 25
  | "trunk_link" => 25
  | "primary" => 25
  | _ => 10

/-- Major-road test of `isHighwayTypeCompatible` (floorability.ts): the route
step's lowercased name or ref marks a major road.  Factored out of the
compatibility check so it can be evaluated on its own. -/
def isMajorRouteName (routeStepName routeStepRef : String) : Bool :=
  let nameLower := routeStepName.toLower
  let refLower := routeStepRef.toLower
  strContains nameLower "parkway" || strContains nameLower "highway"
  || strContains nameLower "interstate" || strContains nameLower "expressway"
  || strContains nameLower "turnpike" || strContains nameLower "freeway"
  || strContains nameLower "thruway" || strContains nameLower "i-"
  || strContains nameLower "us-" || strContains nameLower "us "
  || refLower.startsWith "i " || refLower.startsWith "us "
  || refLower.startsWith "ny " || refLower.startsWith "sr "

/-- Low-class way test of `isHighwayTypeCompatible` (floorability.ts). -/
def isLowTypeWay (overpassHighway : String) : Bool :=
  overpassHighway == "residential" || overpassHighway == "tertiary"
  || overpassHighway == "unclassified" || overpassHighway == "service"
  || overpassHighway == "living_street"

/-- Translation of `isHighwayTypeCompatible` (floorability.ts): a route step
whose name or ref marks a major road must not accept data from a
residential/tertiary/unclassified/service/living_street element. -/
def isHighwayTypeCompatible
    (overpassHighway routeStepName routeStepRef : String) : Bool :=
  !(isMajorRouteName routeStepName routeStepRef && isLowTypeWay overpassHighway)

/-- Digit run to a natural number, for the leading `(\d+)` capture group. -/
def digitsToNat (ds : List Char) : ℕ :=
  ds.foldl (fun n c => 10 * n + (c.toNat - 48)) 0

/-- Translation of `parseSpeedMph` (floorability.ts): the regex
`^(\d+)\s*(mph|km\/h)?` applied to a `maxspeed` tag; `km/h` values are
converted with `Math.round(val * 0.621371)`. -/
def parseSpeedMph (maxspeed : Option String) : Option ℤ :=
  match maxspeed with
  | none => none
  | some s =>
    if s = "" then none
    else
      let cs := s.toList
      let digits := cs.takeWhile Char.isDigit
      if digits = [] then none
      else
        let val : ℤ := digitsToNat digits
        let rest := (cs.dropWhile Char.isDigit).dropWhile Char.isWhitespace
        if startsWithL rest "km/h".toList then
          some (jsRound ((val : ℚ) * (621371 / 1000000)))
        else
          some val

/-- Route step as parsed from OSRM (types/route.ts). -/
structure RouteStep where
  name : String
  ref : String
  distance : ℚ
  duration : ℚ
  maneuverType : String
  maneuverInstruction : String
deriving DecidableEq, Repr

/-- Route leg (types/route.ts). -/
structure RouteLeg where
  distance : ℚ
  duration : ℚ
  summary : String
  steps : List RouteStep
deriving DecidableEq, Repr

/-- Normalized route (`MapboxRoute` in types/route.ts); `coords` embeds
`geometry.coordinates`. -/
structure MapboxRoute where
  distance : ℚ
  duration : ℚ
  coords : List Coord
  legs : List RouteLeg
  weight : ℚ
  weightName : String
deriving DecidableEq, Repr

/-- Segment of the route-index → road-name map (`RouteStepSegment` in
floorability.ts). -/
structure RouteStepSegment where
  name : String
  ref : String
  startIdx : ℕ
  endIdx : ℕ
deriving DecidableEq, Repr

/-- Cumulative distance in meters along the route coordinates, as built at the
top of `buildStepMap` (`cumDist`), with `d * 1609.34` converting the abstract
mile distance to meters. -/
def cumulDistM (hav : Hav) (coords : List Coord) : List ℚ :=
  let ds := (coords.zip coords.tail).map
    (fun p => hav p.1.lat p.1.lng p.2.lat p.2.lng * (160934 / 100))
  ds.scanl (· + ·) 0

/-- First index `i ≥ start` with `target ≤ cum[i]`, else `dflt` — the two
linear searches inside `buildStepMap`. -/
def firstIdxGE (cum : List ℚ) (start : ℕ) (target : ℚ) (dflt : ℕ) : ℕ :=
  match (cum.enum.drop start).find? (fun p => target ≤ p.2) with
  | some p => p.1
  | none => dflt

/-- Translation of `buildStepMap` (floorability.ts): walk the legs' steps,
threading the cumulative step distance, and record a named segment per step.
The two nested source loops (legs, then steps) are flattened here; the
accumulator `currentDistM` threads across leg boundaries exactly as in the
source. -/
def buildStepMap (hav : Hav) (coords : List Coord) (legs : List RouteLeg) :
    List RouteStepSegment :=
  if legs = [] || coords.length < 2 then []
  else
    let cum := cumulDistM hav coords
    let steps := (legs.map (·.steps)).flatten
    (steps.foldl
      (fun (acc : List RouteStepSegment × ℚ) step =>
        let startD := acc.2
        let endD := acc.2 + step.distance
        let startIdx := firstIdxGE cum 0 startD 0
        let endIdx := firstIdxGE cum startIdx endD (coords.length - 1)
        let segs :=
          if step.name ≠ "" then
            acc.1 ++ [⟨step.name, step.ref, startIdx, endIdx⟩]
          else acc.1
        (segs, endD))
      ([], 0)).1

/-- Translation of `getRoadNameAtIndex` (floorability.ts). -/
def getRoadNameAtIndex (idx : ℕ) (stepMap : List RouteStepSegment) : String :=
  match stepMap.find? (fun seg => seg.startIdx ≤ idx && idx ≤ seg.endIdx) with
  | some seg => seg.name
  | none => ""

/-- Translation of `getRoadRefAtIndex` (floorability.ts). -/
def getRoadRefAtIndex (idx : ℕ) (stepMap : List RouteStepSegment) : String :=
  match stepMap.find? (fun seg => seg.startIdx ≤ idx && idx ≤ seg.endIdx) with
  | some seg => seg.ref
  | none => ""

/-- Overpass API element (`OverpassElement` in floorability.ts): a way or a
node with an optional tag map and optional inline geometry. -/
structure OverpassElement where
  etype : String
  id : ℤ
  lat : Option ℚ
  lon : Option ℚ
  tags : Option (List (String × String))
  geometry : Option (List GeoPt)
deriving DecidableEq, Repr

/-- Tag access `el.tags?.k`. -/
def tagOf (el : OverpassElement) (k : String) : Option String :=
  el.tags.bind (fun ts => ts.lookup k)

/-- JavaScript truthiness of a tag access: present and non-empty. -/
def tagTruthy (el : OverpassElement) (k : String) : Bool :=
  match tagOf el k with
  | some v => v ≠ ""
  | none => false

/-- Speed-profile entry built from matched ways (floorability.ts). -/
structure SpeedEntry where
  idx : ℕ
  speedMph : ℤ
  roadName : String
  highway : String
deriving DecidableEq, Repr

/-- Substring test of "Check 4" in `analyzeFloorability` (floorability.ts
lines 579–587): does the route step's lowercased name mark a major road. -/
def routeIsMajorName (routeName : String) : Bool :=
  let s := routeName.toLower
  strContains s "parkway" || strContains s "highway"
  || strContains s "interstate" || strContains s "expressway"
  || strContains s "turnpike" || strContains s "freeway"
  || strContains s "thruway"

/-- Name/type/sanity acceptance checks 1–4 applied to a speed-tagged way when
a step map is present (`analyzeFloorability`, floorability.ts lines 551–593).
The source inlines these in the profile-building loop; they are factored here
unchanged so the matcher can be stated on its own. -/
def acceptSpeedEntry (routeName routeRef wayName wayRef wayHighway : String)
    (speed : ℤ) : Bool :=
  let check1 :=
    if wayName != "" && routeName != "" then
      roadNamesMatch wayName routeName
      || (wayRef != "" && routeRef != "" && wayRef == routeRef)
    else true
  let check2 := routeName == "" || isHighwayTypeCompatible wayHighway routeName routeRef
  let check3 :=
    !(HIGH_SPEED_HIGHWAY_TYPES.contains wayHighway
      && decide (speed < minCredibleSpeed wayHighway))
  let check4 := !(routeIsMajorName routeName && decide (speed < 30))
  check1 && check2 && check3 && check4

/-- Full accept decision for one speed-tagged way with legs present: the
proximity gate (`nearest.dist > 0.04` rejects, floorability.ts line 545)
composed with the name/type/sanity checks. -/
def speedWayAccept (distMi : ℚ) (routeName routeRef wayName wayRef
    wayHighway : String) (speed : ℤ) : Bool :=
  if distMi > 1/25 then false
  else acceptSpeedEntry routeName routeRef wayName wayRef wayHighway speed

/-- Speed-profile construction from Overpass ways (`analyzeFloorability`,
floorability.ts lines 530–601).  The source accumulates with `push`; the fold
appends in the same order.  `0.04` mi is `1/25`. -/
def buildSpeedProfile (hav : Hav) (coords : List Coord)
    (elements : List OverpassElement) (stepMap : List RouteStepSegment)
    (hasStepMap : Bool) : List SpeedEntry :=
  let speedWays := elements.filter
    (fun el => el.etype == "way" && tagTruthy el "maxspeed")
  speedWays.foldl
    (fun prof way =>
      match parseSpeedMph (tagOf way "maxspeed") with
      | none => prof
      | some speed =>
        if speed = 0 then prof
        else
          let geo := way.geometry.getD []
          if geo = [] then prof
          else
            let midGeo := geo.getD (geo.length / 2) ⟨0, 0⟩
            match findNearestPoint hav midGeo.lat midGeo.lon coords with
            | none => prof
            | some (idx, dist) =>
              if dist > 1/25 then prof
              else
                let wayName := (tagOf way "name").getD ""
                let wayHighway :=
                  match tagOf way "highway" with
                  | some h => if h = "" then "road" else h
                  | none => "road"
                let routeName := getRoadNameAtIndex idx stepMap
                let routeRef := getRoadRefAtIndex idx stepMap
                let wayRef := (tagOf way "ref").getD ""
                if hasStepMap
                    && !(acceptSpeedEntry routeName routeRef wayName wayRef
                          wayHighway speed) then prof
                else
                  let entryName :=
                    if wayName ≠ "" then wayName
                    else if hasStepMap then routeName else "unnamed"
                  prof ++ [⟨idx, speed, entryName, wayHighway⟩])
    []

/-- Pairwise deduplication of near-duplicate profile entries
(`analyzeFloorability`, floorability.ts lines 608–629): entries within 10
route indices collapse, preferring the one whose name matches the step-map
name at the current index. -/
def dedupProfile (stepMap : List RouteStepSegment) (hasStepMap : Bool) :
    List SpeedEntry → List SpeedEntry
  | [] => []
  | [a] => [a]
  | a :: b :: rest =>
    if ((b.idx : ℤ) - (a.idx : ℤ)).natAbs < 10 then
      if hasStepMap then
        let routeName := getRoadNameAtIndex a.idx stepMap
        let currMatch := roadNamesMatch a.roadName routeName
        let nextMatch := roadNamesMatch b.roadName routeName
        if nextMatch && !currMatch then dedupProfile stepMap hasStepMap (b :: rest)
        else a :: dedupProfile stepMap hasStepMap rest
      else a :: dedupProfile stepMap hasStepMap rest
    else a :: dedupProfile stepMap hasStepMap (b :: rest)

/-- Floor-it event category (closed union in floorability.ts). -/
inductive EvType where
  | speed_delta
  | signal_launch
  | ramp_merge
deriving DecidableEq, Repr

/-- Floor-it event (floorability.ts). -/
structure FloorItEvent where
  type : EvType
  lat : ℚ
  lng : ℚ
  score : ℚ
  label : String
  detail : String
  runwayMi : ℚ
deriving DecidableEq, Repr

/-- Distance summed along route coordinates, modelling the loop pattern
`for (j = fromIdx; j < toIdx - 1 && j < coords.length - 1; j++)` used for
runway and next-signal distances in floorability.ts. -/
def pathDist (hav : Hav) (coords : List Coord) (fromIdx toIdx : ℕ) : ℚ :=
  let upper := min (toIdx - 1) (coords.length - 1)
  ((List.range' fromIdx (upper - fromIdx)).map
    (fun j =>
      let a := coords.getD j dummyCoord
      let b := coords.getD (j + 1) dummyCoord
      hav a.lat a.lng b.lat b.lng)).sum

/-- Speed-delta detection over adjacent profile entries (`analyzeFloorability`,
floorability.ts lines 634–670): the source iterates `i` from 1, reading
`prev = fp[i-1]`, `curr = fp[i]` and `nextChange = fp[i+1]`; here `prev` is
threaded and `rest.head?` plays `fp[i+1]`. -/
def speedDeltaLoop (hav : Hav) (coords : List Coord) :
    SpeedEntry → List SpeedEntry → List FloorItEvent
  | _, [] => []
  | prev, curr :: rest =>
    let tail := speedDeltaLoop hav coords curr rest
    let delta := curr.speedMph - prev.speedMph
    if 10 ≤ delta then
      let runwayEndIdx :=
        match rest.head? with
        | some nc => nc.idx
        | none => min (curr.idx + 200) (coords.length - 1)
      let runwayMi := pathDist hav coords curr.idx runwayEndIdx
      let speedFactor : ℚ :=
        if 50 ≤ curr.speedMph then 3/2
        else if 40 ≤ curr.speedMph then 6/5 else 1
      let score := (delta : ℚ) * min runwayMi 3 * speedFactor
      let coord := coords.getD curr.idx dummyCoord
      { type := .speed_delta, lat := coord.lat, lng := coord.lng, score := score,
        label := toString prev.speedMph ++ "→" ++ toString curr.speedMph
          ++ " mph",
        detail := "Speed jumps from " ++ toString prev.speedMph ++ " to "
          ++ toString curr.speedMph ++ " mph on " ++ curr.roadName ++ ". "
          ++ ratToFixed1 runwayMi ++ "mi runway ahead.",
        runwayMi } :: tail
    else tail

/-- Speed-delta events of a final speed profile. -/
def speedDeltaEvents (hav : Hav) (coords : List Coord) :
    List SpeedEntry → List FloorItEvent
  | [] => []
  | p :: rest => speedDeltaLoop hav coords p rest

/-- Distance to the next signal along the route (`analyzeFloorability`,
floorability.ts lines 695–712): scan the signal list in order for the first
signal past `baseIdx` whose along-route distance exceeds 0.1 mi; the source
takes `Math.min(2.0, dist)` and breaks, and defaults to 2.0 miles. -/
def findNextSignalAux (hav : Hav) (coords : List Coord) (selfId : ℤ)
    (baseIdx : ℕ) : List OverpassElement → ℚ
  | [] => 2
  | s :: rest =>
    if s.id = selfId then findNextSignalAux hav coords selfId baseIdx rest
    else
      match s.lat, s.lon with
      | some la, some lo =>
        if la = 0 || lo = 0 then findNextSignalAux hav coords selfId baseIdx rest
        else
          match findNearestPoint hav la lo coords with
          | none => findNextSignalAux hav coords selfId baseIdx rest
          | some (oidx, _) =>
            if baseIdx < oidx then
              let dist := pathDist hav coords baseIdx oidx
              if dist > 1/10 then min 2 dist
              else findNextSignalAux hav coords selfId baseIdx rest
            else findNextSignalAux hav coords selfId baseIdx rest
      | _, _ => findNextSignalAux hav coords selfId baseIdx rest

/-- Loop body of the signal-launch detection (`analyzeFloorability`,
floorability.ts lines 677–727), factored out of the fold so the produced
event category can be reasoned about: signals within 0.05 mi on a road whose
nearest profile entry (within 30 indices, default 35 mph) is at least
35 mph. -/
def signalStep (hav : Hav) (coords : List Coord)
    (signals : List OverpassElement) (fp : List SpeedEntry)
    (evs : List FloorItEvent) (signal : OverpassElement) :
    List FloorItEvent :=
  match signal.lat, signal.lon with
  | some la, some lo =>
    if la = 0 || lo = 0 then evs
    else
      match findNearestPoint hav la lo coords with
      | none => evs
      | some (idx, dist) =>
        if dist > 1/20 then evs
        else
          let signalSpeed :=
            ((fp.find? (fun sp => ((sp.idx : ℤ) - (idx : ℤ)).natAbs < 30)).map
              (·.speedMph)).getD 35
          if signalSpeed < 35 then evs
          else
            let nextSignalDist :=
              findNextSignalAux hav coords signal.id idx signals
            let score :=
              ((signalSpeed : ℚ) / 50) * min nextSignalDist 2 * 15
            let lbl := "🚦 " ++ toString signalSpeed ++ "mph launch"
            let det := "Traffic light on " ++ toString signalSpeed
              ++ "mph road. " ++ ratToFixed1 nextSignalDist
              ++ "mi until next signal — floor it."
            evs ++ [⟨.signal_launch, la, lo, score, lbl, det, nextSignalDist⟩]
  | _, _ => evs

/-- Signal-launch detection: fold of `signalStep` over the signal nodes. -/
def signalEvents (hav : Hav) (coords : List Coord)
    (signals : List OverpassElement) (fp : List SpeedEntry) :
    List FloorItEvent :=
  signals.foldl (signalStep hav coords signals fp) []

/-- Loop body of the ramp-merge detection (`analyzeFloorability`,
floorability.ts lines 734–763), factored out of the fold: motorway links
within 0.15 mi score by their length capped at half a mile. -/
def rampStep (hav : Hav) (coords : List Coord) (evs : List FloorItEvent)
    (ramp : OverpassElement) : List FloorItEvent :=
  let geo := ramp.geometry.getD []
  if geo = [] then evs
  else
    let midGeo := geo.getD (geo.length / 2) ⟨0, 0⟩
    match findNearestPoint hav midGeo.lat midGeo.lon coords with
    | none => evs
    | some (_, dist) =>
      if dist > 3/20 then evs
      else
        let rampLen :=
          ((geo.zip geo.tail).map
            (fun p => hav p.1.lat p.1.lon p.2.lat p.2.lon)).sum
        let score := min rampLen (1/2) * 60
        let det := ratToFixed0 (rampLen * 5280)
          ++ "ft on-ramp — merge acceleration zone."
        evs ++ [⟨.ramp_merge, midGeo.lat, midGeo.lon, score,
          "🛣️ Highway merge", det, rampLen⟩]

/-- Ramp-merge detection: fold of `rampStep` over the motorway links. -/
def rampEvents (hav : Hav) (coords : List Coord)
    (ramps : List OverpassElement) : List FloorItEvent :=
  ramps.foldl (rampStep hav coords) []

/-- JavaScript `parseInt(s, 10)`: skip leading whitespace, optional sign,
leading digits; `none` models `NaN`. -/
def parseIntLeading (s : String) : Option ℤ :=
  let cs := s.toList.dropWhile Char.isWhitespace
  let (neg, cs) :=
    match cs with
    | '-' :: rest => (true, rest)
    | '+' :: rest => (false, rest)
    | _ => (false, cs)
  let digits := cs.takeWhile Char.isDigit
  if digits = [] then none
  else some (if neg then -(digitsToNat digits : ℤ) else (digitsToNat digits : ℤ))

/-- Road-quality accumulation from lane/surface tags (`analyzeFloorability`,
floorability.ts lines 769–776).  A `NaN` lane count (unparsable tag) fails
both `>=` comparisons, hence no lane bonus. -/
def roadQualityRawOf (ways : List OverpassElement) : ℚ :=
  ways.foldl
    (fun acc way =>
      let lanesStr := (tagOf way "lanes").getD "0"
      let lanesStr := if lanesStr = "" then "0" else lanesStr
      let laneBonus : ℚ :=
        match parseIntLeading lanesStr with
        | some v => if 4 ≤ v then 3 else if 2 ≤ v then 1 else 0
        | none => 0
      let surface := (tagOf way "surface").getD ""
      let surfBonus : ℚ :=
        if surface = "asphalt" then 2
        else if surface = "concrete" then 1 else 0
      acc + laneBonus + surfBonus)
    0

/-- Floorability result (floorability.ts). -/
structure FloorabilityResult where
  totalScore : ℤ
  rawScore : ℚ
  events : List FloorItEvent
  speedDeltaScore : ℤ
  signalLaunchScore : ℤ
  rampMergeScore : ℤ
  runwayScore : ℤ
  roadQualityScore : ℤ
  bestMoment : String
  floorItCount : ℕ
deriving DecidableEq, Repr

/-- Composite score from the five raw components (`analyzeFloorability`,
floorability.ts lines 779–786): weighted sum, normalized by 150 and clamped
above at 100. -/
def totalScoreOfRaws (sd sl rm rw rq : ℚ) : ℤ :=
  let rawTotal := sd * (35/100) + sl * (25/100) + rm * (20/100)
    + rw * (10/100) + rq * (10/100)
  min 100 (jsRound (rawTotal / 150 * 100))

/-- Category sub-score: raw value against a fixed denominator, clamped above
at 100 (floorability.ts lines 801–805). -/
def subScore (raw denom : ℚ) : ℤ := min 100 (jsRound (raw / denom * 100))

/-- Final speed profile of a floorability analysis (sorted then deduplicated,
falling back to the sorted profile when deduplication empties it), exposed to
state claims that condition on the computed profile. -/
def finalProfileOf (hav : Hav) (coords : List Coord)
    (elements : List OverpassElement) (legs : Option (List RouteLeg)) :
    List SpeedEntry :=
  let stepMap := match legs with
    | some l => buildStepMap hav coords l
    | none => []
  let hasStepMap := !stepMap.isEmpty
  let profile := buildSpeedProfile hav coords elements stepMap hasStepMap
  let sortedProfile := sortByKeyAsc (·.idx) profile
  let deduped := dedupProfile stepMap hasStepMap sortedProfile
  if deduped.isEmpty then sortedProfile else deduped

/-- Translation of `analyzeFloorability` (floorability.ts): build the step
map, the speed profile (sorted and deduplicated), detect the three event
categories, accumulate raw component scores, normalize, and sort events by
score.  The source accumulates `speedDeltaRaw`/`runwayRaw` etc. inside the
detection loops; each event carries exactly its contribution, so the raws are
recovered here as sums over the events. -/
def analyzeFloorability (hav : Hav) (coords : List Coord)
    (elements : List OverpassElement) (legs : Option (List RouteLeg)) :
    FloorabilityResult :=
  let finalProfile := finalProfileOf hav coords elements legs
  let sdEvents := speedDeltaEvents hav coords finalProfile
  let speedDeltaRaw := (sdEvents.map (·.score)).sum
  let runwayRaw := (sdEvents.map (fun e => e.runwayMi * 5)).sum
  let signals := elements.filter
    (fun el => el.etype == "node" && tagOf el "highway" == some "traffic_signals")
  let sigEvents := signalEvents hav coords signals finalProfile
  let signalLaunchRaw := (sigEvents.map (·.score)).sum
  let ramps := elements.filter
    (fun el => el.etype == "way" && tagOf el "highway" == some "motorway_link"
      && !(el.geometry.getD []).isEmpty)
  let rmEvents := rampEvents hav coords ramps
  let rampMergeRaw := (rmEvents.map (·.score)).sum
  let qualityWays := elements.filter
    (fun el => el.etype == "way" && el.tags.isSome
      && (tagTruthy el "lanes" || tagTruthy el "surface"))
  let roadQualityRaw := roadQualityRawOf qualityWays
  let rawTotal := speedDeltaRaw * (35/100) + signalLaunchRaw * (25/100)
    + rampMergeRaw * (20/100) + runwayRaw * (10/100)
    + roadQualityRaw * (10/100)
  let events := sortByKeyDesc (·.score) (sdEvents ++ sigEvents ++ rmEvents)
  { totalScore := totalScoreOfRaws speedDeltaRaw signalLaunchRaw rampMergeRaw
      runwayRaw roadQualityRaw
    rawScore := rawTotal
    events
    speedDeltaScore := subScore speedDeltaRaw 50
    signalLaunchScore := subScore signalLaunchRaw 40
    rampMergeScore := subScore rampMergeRaw 30
    runwayScore := subScore runwayRaw 30
    roadQualityScore := subScore roadQualityRaw 20
    bestMoment := ((events.head?).map (·.detail)).getD
      "No major floor-it events detected on this route."
    floorItCount := events.length }

/-- Elements of `l` at indices `0, step, 2·step, …`, modelling the strided
loops `for (i = 0; i < l.length; i += step)` of `calculateOverlapPenalty`. -/
def sampleEvery {α : Type} (l : List α) (step : ℕ) : List α :=
  (l.enum.filter (fun p => p.1 % step = 0)).map (·.2)

/-- Translation of `calculateOverlapPenalty` (loopRouter.ts, second revision,
lines 562–589): compare sampled outbound points with the reversed inbound
half; a sampled outbound point counts as overlapping when some sampled inbound
point is within 0.0008° in both axes.  Requires at least 10 points, else 0. -/
def calculateOverlapPenalty (coords : List Coord) : ℚ :=
  if coords.length < 10 then 0
  else
    let mid := coords.length / 2
    let outbound := coords.take mid
    let inbound := (coords.drop mid).reverse
    let sampleStep := max 1 (outbound.length / 50)
    let outS := sampleEvery outbound sampleStep
    let inS := sampleEvery inbound sampleStep
    let thr : ℚ := 8/10000
    let overlapCount := (outS.filter
      (fun o => inS.any
        (fun q => decide (|o.lat - q.lat| < thr)
          && decide (|o.lng - q.lng| < thr)))).length
    let totalSampled := (outbound.length + sampleStep - 1) / sampleStep
    if 0 < totalSampled then (overlapCount : ℚ) / (totalSampled : ℚ) else 0

/-- Loop candidate as carried through `generateLoopRoutes` before scoring. -/
structure LoopCand where
  route : MapboxRoute
  waypoints : List Coord
deriving DecidableEq, Repr

/-- Candidate filter chain of `generateLoopRoutes` (loopRouter.ts, second
revision, lines 693–736): duration within `[0.5, 1.8] × target`, then hard
overlap rejection at 0.25; when the result is empty, a lenient tier
(overlap ≤ 0.4, same duration window), then a last resort keeping the three
lowest-overlap candidates within `[0.25, 2.16] × target`; an error when all
tiers are empty (`throw new Error(...)` in the source). -/
def filterCandidates (targetSec : ℚ) (cands : List LoopCand) :
    Except String (List LoopCand) :=
  let minD := targetSec * (5/10)
  let maxD := targetSec * (18/10)
  let durOk := fun (c : LoopCand) =>
    decide (minD ≤ c.route.duration) && decide (c.route.duration ≤ maxD)
  let f1 := cands.filter durOk
  let f2 := f1.filter
    (fun c => decide (calculateOverlapPenalty c.route.coords ≤ 25/100))
  if f2 ≠ [] then .ok f2
  else
    let lenient := cands.filter
      (fun c => decide (calculateOverlapPenalty c.route.coords ≤ 4/10)
        && durOk c)
    if lenient ≠ [] then .ok lenient
    else
      let withOverlap :=
        (sortByKeyAsc (fun c => calculateOverlapPenalty c.route.coords)
          (cands.filter
            (fun c => decide (minD * (5/10) ≤ c.route.duration)
              && decide (c.route.duration ≤ maxD * (12/10))))).take 3
      if withOverlap = [] then
        .error "Could not generate any non-overlapping loop routes from this location. Try a different spot or longer duration."
      else .ok withOverlap

/-- Final pre-scoring selection (loopRouter.ts lines 739–745): sort by
closeness to the target duration and keep the top 6. -/
def selectTopCandidates (targetSec : ℚ) (filtered : List LoopCand) :
    List LoopCand :=
  (sortByKeyAsc (fun c => |c.route.duration - targetSec|) filtered).take 6

/-- Name pool (loopRouter.ts). -/
def LOOP_NAMES_SPEED_DELTA : List String :=
  ["The Speed Step", "Gear Shift Loop", "The Accelerator", "Zone Runner",
   "The Speed Surge"]

/-- Name pool (loopRouter.ts). -/
def LOOP_NAMES_SIGNAL : List String :=
  ["The Launch Loop", "Green Light Special", "Signal Sender",
   "The Traffic Dancer", "Light-to-Light"]

/-- Name pool (loopRouter.ts). -/
def LOOP_NAMES_RAMP : List String :=
  ["The Ramp Run", "Merge Machine", "On-Ramp Rally", "Highway Hopper",
   "The Merge Loop"]

/-- Name pool (loopRouter.ts). -/
def LOOP_NAMES_GENERAL : List String :=
  ["The Full Send", "The Quick Rip", "Neighborhood Blast", "The Joy Loop",
   "Sunday Sender", "The Daily Driver", "Backyard Burner", "The Scenic Rip"]

/-- Route colors, ordered by rank (loopRouter.ts). -/
def ROUTE_COLORS : List String :=
  ["#ff2d55", "#ffb800", "#00d4ff", "#a855f7", "#22c55e"]

/-- Translation of `nameLoopRoute` (loopRouter.ts). -/
def nameLoopRoute (f : FloorabilityResult) (index : ℕ) : String :=
  if f.speedDeltaScore > f.signalLaunchScore
      ∧ f.speedDeltaScore > f.rampMergeScore then
    LOOP_NAMES_SPEED_DELTA.getD (index % LOOP_NAMES_SPEED_DELTA.length) ""
  else if f.signalLaunchScore > f.rampMergeScore then
    LOOP_NAMES_SIGNAL.getD (index % LOOP_NAMES_SIGNAL.length) ""
  else if f.rampMergeScore > 20 then
    LOOP_NAMES_RAMP.getD (index % LOOP_NAMES_RAMP.length) ""
  else
    LOOP_NAMES_GENERAL.getD (index % LOOP_NAMES_GENERAL.length) ""

/-- Translation of `categorizeLoop` (loopRouter.ts). -/
def categorizeLoop (f : FloorabilityResult) : String :=
  if f.rampMergeScore > f.speedDeltaScore
      ∧ f.rampMergeScore > f.signalLaunchScore then "Highway-heavy"
  else if f.speedDeltaScore > f.signalLaunchScore then "Speed transitions"
  else if f.signalLaunchScore > 20 then "Signal launches"
  else "Mixed"

/-- Translation of `generateLoopHighlights` (loopRouter.ts, second revision,
lines 906–947): at most four highlight strings in source push order. -/
def generateLoopHighlights (f : FloorabilityResult) (durationMin : ℤ)
    (overlapPenalty : ℚ) : List String :=
  let h1 :=
    if 0 < f.floorItCount then
      [toString f.floorItCount ++ " floor-it moment"
        ++ (if f.floorItCount ≠ 1 then "s" else "")]
    else []
  let h2 :=
    match f.events.head? with
    | some best =>
      if best.type = .speed_delta then
        ["Best: " ++ best.label ++ " with " ++ ratToFixed1 best.runwayMi
          ++ "mi runway"]
      else ["Best: " ++ best.label]
    | none => []
  let speedEvents := f.events.filter (fun e => e.type == EvType.speed_delta)
  let signalEvents := f.events.filter (fun e => e.type == EvType.signal_launch)
  let rampEvents := f.events.filter (fun e => e.type == EvType.ramp_merge)
  let h3 :=
    if 0 < speedEvents.length then
      [toString speedEvents.length ++ " speed transitions"]
    else []
  let h4 :=
    if 0 < signalEvents.length then
      [toString signalEvents.length ++ " signal launch"
        ++ (if signalEvents.length ≠ 1 then "es" else "")]
    else []
  let h5 :=
    if 0 < rampEvents.length then
      [toString rampEvents.length ++ " highway merge"
        ++ (if rampEvents.length ≠ 1 then "s" else "")]
    else []
  let h6 :=
    if overlapPenalty > 3/10 then
      ["⚠️ " ++ toString (jsRound (overlapPenalty * 100)) ++ "% road overlap"]
    else if overlapPenalty < 1/10 then
      ["✅ Unique outbound & return roads"]
    else []
  let h7 := ["~" ++ toString durationMin ++ " min loop"]
  (h1 ++ h2 ++ h3 ++ h4 ++ h5 ++ h6 ++ h7).take 4

/-- Scored loop route (`LoopRoute` in loopRouter.ts, second revision). -/
structure LoopRouteE where
  id : String
  name : String
  mapboxRoute : MapboxRoute
  distanceMi : ℚ
  durationMin : ℤ
  deltaMin : ℤ
  isFastest : Bool
  color : String
  highlights : List String
  floorability : FloorabilityResult
  loopStyle : String
  waypoints : List Coord
  overlapPenalty : ℚ
deriving DecidableEq, Repr

/-- Rounding to one decimal, modelling `parseFloat(x.toFixed(1))`. -/
def round1 (q : ℚ) : ℚ := (jsRound (q * 10) : ℚ) / 10

/-- Per-candidate entry construction inside `scoreCandidates` (loopRouter.ts,
second revision, lines 837–863): compute the overlap penalty, apply the single
post-hoc score adjustment (`overlapPenalty > 0.1` multiplies `totalScore` by
`1 − overlapPenalty × 0.3`, rounded), and assemble the display fields. -/
def mkScoredLoop (i : ℕ) (start : Coord) (route : MapboxRoute)
    (waypoints : List Coord) (floorability0 : FloorabilityResult) :
    LoopRouteE :=
  let overlapPenalty := calculateOverlapPenalty route.coords
  let floorability :=
    if overlapPenalty > 1/10 then
      { floorability0 with
        totalScore := jsRound ((floorability0.totalScore : ℚ)
          * (1 - overlapPenalty * (3/10))) }
    else floorability0
  let durationMin := jsRound (route.duration / 60)
  { id := "loop-" ++ toString i
    name := nameLoopRoute floorability i
    mapboxRoute := route
    distanceMi := round1 (route.distance / (160934/100))
    durationMin := durationMin
    deltaMin := 0
    isFastest := false
    color := ROUTE_COLORS.getD (i % ROUTE_COLORS.length) ""
    highlights := generateLoopHighlights floorability durationMin overlapPenalty
    floorability := floorability
    loopStyle := categorizeLoop floorability
    waypoints := start :: waypoints
    overlapPenalty := overlapPenalty }

/-- Minimum `durationMin` over the score-sorted candidate list, modelling
`Math.min(...scored.map((r) => r.durationMin))` after the in-place sort
(loopRouter.ts line 875); the value is unused when the list is empty. -/
def rankShortest (scored : List LoopRouteE) : ℤ :=
  match sortByKeyDesc (fun r => r.floorability.totalScore) scored with
  | [] => 0
  | x :: xs => xs.foldl (fun m r => min m r.durationMin) x.durationMin

/-- Final ranking step of `scoreCandidates` (loopRouter.ts, second revision,
lines 871–890): sort by `totalScore` descending, set `deltaMin`/`isFastest`
against the minimum `durationMin` of the sorted list, reassign color and id by
rank, and return the top 5. -/
def rankLoops (scored : List LoopRouteE) : List LoopRouteE :=
  let sorted := sortByKeyDesc (fun r => r.floorability.totalScore) scored
  let shortest := rankShortest scored
  let withDelta := sorted.map
    (fun r =>
      { r with
        deltaMin := r.durationMin - shortest
        isFastest := decide (r.durationMin = shortest) })
  let recolored := withDelta.enum.map
    (fun p =>
      { p.2 with
        color := ROUTE_COLORS.getD (p.1 % ROUTE_COLORS.length) ""
        id := "loop-" ++ toString p.1 })
  recolored.take 5

/-- Low-floorability check of the store (`routeStore.ts` lines 260–261):
all returned loops score below 25. -/
def lowFloorabilityWarning (loops : List LoopRouteE) : Bool :=
  decide (0 < loops.length)
    && loops.all (fun l => decide (l.floorability.totalScore < 25))

/-- Shoelace signed-sum over a closed polygon (twice its signed area). -/
def shoelaceSum (pts : List (ℚ × ℚ)) : ℚ :=
  ((pts.zip (pts.rotateLeft 1)).map
    (fun p => p.1.1 * p.2.2 - p.2.1 * p.1.2)).sum

/-- Modelled from the spec: `circularity` does not exist anywhere in the
repository sources; spec §4.5 describes it as shoelace polygon area over
mile-scaled local coordinates divided by the bounding-box area, forced to 0
when the bounding-box aspect ratio exceeds 5:1, requiring at least 3 points
(else 0), with codomain [0,1] (enforced here by the final clamp).  The
per-degree longitude mile factor (a cosine of the latitude) is abstracted as
the parameter `lngScale`; latitude uses 69 miles per degree. -/
def circularitySpec (lngScale : ℚ) (coords : List Coord) : ℚ :=
  match coords with
  | c0 :: _ :: _ :: _ =>
    let minLng := (coords.map (·.lng)).foldl min c0.lng
    let maxLng := (coords.map (·.lng)).foldl max c0.lng
    let minLat := (coords.map (·.lat)).foldl min c0.lat
    let maxLat := (coords.map (·.lat)).foldl max c0.lat
    let w := (maxLng - minLng) * lngScale
    let h := (maxLat - minLat) * 69
    if w ≤ 0 ∨ h ≤ 0 then 0
    else if max w h > 5 * min w h then 0
    else
      let pts := coords.map
        (fun c => ((c.lng - minLng) * lngScale, (c.lat - minLat) * 69))
      let area := |shoelaceSum pts| / 2
      min 1 (area / (w * h))
  | _ => 0

/-- Overlap-penalty score adjustment of `scoreCandidates` (loopRouter.ts,
second revision, lines 841–844), stated as a function of the incoming total
score and the overlap penalty; `mkScoredLoop` applies exactly this once. -/
def applyOverlapPenaltyAdjust (total : ℤ) (overlap : ℚ) : ℤ :=
  if overlap > 1/10 then jsRound ((total : ℚ) * (1 - overlap * (3/10)))
  else total

/-- Degraded result used when the Overpass query fails (`scoreCandidates`
catch block, loopRouter.ts lines 822–835). -/
def degradedFloorability : FloorabilityResult :=
  { totalScore := 0
    rawScore := 0
    events := []
    speedDeltaScore := 0
    signalLaunchScore := 0
    rampMergeScore := 0
    runwayScore := 0
    roadQualityScore := 0
    bestMoment := "Road data unavailable — score is estimated."
    floorItCount := 0 }

/-- Modelled from the spec: the post-hoc score adjustment pair described in
spec §4.6 — `overlapPenalty > 0.1` multiplies `totalScore` by
`1 − overlapPenalty × 0.3`, and `circularity > 0.4` adds a flat +3 capped at
100.  Stated only to compare against the source's adjustment (which has no
circularity bonus). -/
def postAdjustSpec (total : ℤ) (overlap circ : ℚ) : ℤ :=
  let t1 :=
    if overlap > 1/10 then jsRound ((total : ℚ) * (1 - overlap * (3/10)))
    else total
  if circ > 2/5 then min 100 (t1 + 3) else t1

/-- Raw OSRM step as found in a JSON payload; `Option` marks fields the
response may omit. -/
structure RawStep where
  name : Option String
  ref : Option String
  distance : ℚ
  duration : ℚ
  maneuverType : Option String
  maneuverInstruction : Option String
deriving DecidableEq, Repr

/-- Raw OSRM leg. -/
structure RawLeg where
  distance : ℚ
  duration : ℚ
  summary : Option String
  steps : Option (List RawStep)
deriving DecidableEq, Repr

/-- Raw OSRM route. -/
structure RawRoute where
  distance : ℚ
  duration : ℚ
  coords : List Coord
  legs : List RawLeg
deriving DecidableEq, Repr

/-- Parsed OSRM response body. -/
structure OsrmPayload where
  code : String
  routes : List RawRoute
deriving DecidableEq, Repr

/-- Outcome of one HTTP route fetch: `thrown` covers a network error or a
timeout (the `fetch` promise rejects), otherwise a response with its `ok`
flag, status code and body — `none` standing for a body `response.json()`
cannot parse. -/
inductive FetchOutcome where
  | thrown
  | response (ok : Bool) (status : ℕ) (body : Option OsrmPayload)
deriving DecidableEq, Repr

deriving instance DecidableEq for Except

/-- Route conversion inside `fetchLoopRoute` (loopRouter.ts, second revision,
lines 470–491): defensive defaults, no `ref` field, `weight` mirrored from
the duration. -/
def convertLoopRoute (r : RawRoute) : MapboxRoute :=
  { distance := r.distance
    duration := r.duration
    coords := r.coords
    legs := r.legs.map
      (fun leg =>
        { distance := leg.distance
          duration := leg.duration
          summary := leg.summary.getD ""
          steps := (leg.steps.getD []).map
            (fun s =>
              { name := s.name.getD ""
                ref := ""
                distance := s.distance
                duration := s.duration
                maneuverType := s.maneuverType.getD ""
                maneuverInstruction := s.maneuverInstruction.getD "" }) })
    weight := r.duration
    weightName := "duration" }

/-- Translation of `fetchLoopRoute` (loopRouter.ts, second revision, lines
458–495): the whole body is inside `try … catch { return null }`, so every
failure — network error, timeout, non-2xx response, unparsable body, a code
other than `"Ok"`, or an empty route list — produces `none`. -/
def fetchLoopRouteModel (out : FetchOutcome) : Option MapboxRoute :=
  match out with
  | .thrown => none
  | .response ok _ body =>
    if !ok then none
    else
      match body with
      | none => none
      | some p =>
        if p.code ≠ "Ok" then none
        else
          match p.routes with
          | [] => none
          | r :: _ => some (convertLoopRoute r)

/-- Route conversion inside `fetchRoutes` (mapbox.ts lines 63–84): keeps the
step `ref` with an empty-string default. -/
def convertP2PRoute (r : RawRoute) : MapboxRoute :=
  { distance := r.distance
    duration := r.duration
    coords := r.coords
    legs := r.legs.map
      (fun leg =>
        { distance := leg.distance
          duration := leg.duration
          summary := leg.summary.getD ""
          steps := (leg.steps.getD []).map
            (fun s =>
              { name := s.name.getD ""
                ref := s.ref.getD ""
                distance := s.distance
                duration := s.duration
                maneuverType := s.maneuverType.getD ""
                maneuverInstruction := s.maneuverInstruction.getD "" }) })
    weight := r.duration
    weightName := "duration" }

/-- Point-to-point scored route (`ScoredRoute` in types/route.ts). -/
structure ScoredRouteE where
  id : String
  name : String
  mapboxRoute : MapboxRoute
  distanceMi : ℚ
  durationMin : ℤ
  deltaMin : ℤ
  isFastest : Bool
  color : String
  highlights : List String
deriving DecidableEq, Repr

/-- Failure of a point-to-point fetch, modelling the `throw new Error(…)`
sites of `fetchRoutes` (mapbox.ts) plus exceptions propagated from
`osrmFetch` or `response.json()`. -/
inductive FetchErr where
  | upstream
  | httpStatus (n : ℕ)
  | malformedBody
  | badCode (c : String)
  | noRoutes
deriving DecidableEq, Repr

/-- Translation of `scoreRoutes` (mapbox.ts lines 89–118), parametric in the
external name/highlight generators (`routeNamer.ts` is outside the scored
pipeline).  The slowest index keeps the first maximum, as the source
`reduce` with strict `>` does; `isFastest` compares raw durations. -/
def scoreRoutes (namer : MapboxRoute → ℕ → Bool → Bool → String)
    (highlighter : MapboxRoute → List String) (routes : List MapboxRoute) :
    List ScoredRouteE :=
  match routes with
  | [] => []
  | r0 :: rest =>
    let fastestDuration := rest.foldl (fun m r => min m r.duration) r0.duration
    let slowestIdx := ((r0 :: rest).enum.foldl
      (fun mi p =>
        if p.2.duration > ((r0 :: rest).getD mi r0).duration then p.1 else mi)
      0)
    (r0 :: rest).enum.map
      (fun p =>
        let durationMin := jsRound (p.2.duration / 60)
        let fastestMin := jsRound (fastestDuration / 60)
        { id := "route-" ++ toString p.1
          name := namer p.2 p.1 (decide (p.2.duration = fastestDuration))
            (decide (p.1 = slowestIdx))
          mapboxRoute := p.2
          distanceMi := round1 (p.2.distance / (160934/100))
          durationMin := durationMin
          deltaMin := durationMin - fastestMin
          isFastest := decide (p.2.duration = fastestDuration)
          color := ROUTE_COLORS.getD (p.1 % ROUTE_COLORS.length) ""
          highlights := highlighter p.2 })

/-- Translation of `fetchRoutes` (mapbox.ts lines 42–87): no `try`/`catch`,
so an upstream exception propagates, a non-ok response throws
`Routing error: status`, a code other than `"Ok"` throws, and an empty route
list throws; only a parsed `"Ok"` payload with routes is scored. -/
def fetchRoutesModel (namer : MapboxRoute → ℕ → Bool → Bool → String)
    (highlighter : MapboxRoute → List String) (out : FetchOutcome) :
    Except FetchErr (List ScoredRouteE) :=
  match out with
  | .thrown => .error .upstream
  | .response ok status body =>
    if !ok then .error (.httpStatus status)
    else
      match body with
      | none => .error .malformedBody
      | some p =>
        if p.code ≠ "Ok" then .error (.badCode p.code)
        else if p.routes = [] then .error .noRoutes
        else .ok (scoreRoutes namer highlighter (p.routes.map convertP2PRoute))

/-- Failure shape of a fetch outcome: network/timeout throw, non-2xx
response, unparsable body, non-`"Ok"` code, or an empty route list. -/
def isFetchFailure (out : FetchOutcome) : Bool :=
  match out with
  | .thrown => true
  | .response ok _ body =>
    !ok
    || (match body with
        | none => true
        | some p => p.code != "Ok" || p.routes.isEmpty)

/-- Number of configured OSRM servers (`OSRM_SERVERS` in osrm.ts). -/
def OSRM_SERVER_COUNT : ℕ := 2

/-- Failover cool-down in milliseconds (osrm.ts). -/
def FAILOVER_RESET_MS : ℤ := 5 * 60 * 1000

/-- Behavior of one server for the current request: the `fetch` promise
rejects (network error or timeout abort), or resolves with a status code. -/
inductive ServerOutcome where
  | netError
  | status (n : ℕ)
deriving DecidableEq, Repr

/-- Translation of `tryServer` inside `osrmFetch` (osrm.ts lines 43–56): a
rejection or a status ≥ 500 is an exception; any other response — including
non-2xx statuses below 500 — is returned as-is. -/
def osrmTry (beh : ℕ → ServerOutcome) (i : ℕ) : Except Unit ℕ :=
  match beh i with
  | .netError => .error ()
  | .status n => if 500 ≤ n then .error () else .ok n

/-- Module-level failover state of osrm.ts (`activeServerIndex`,
`failoverTimestamp`). -/
structure OsrmState where
  active : ℕ
  failoverTs : ℤ
deriving DecidableEq, Repr

/-- Translation of `resetIfExpired` (osrm.ts lines 22–26). -/
def resetIfExpired (now : ℤ) (st : OsrmState) : OsrmState :=
  if 0 < st.active ∧ now - st.failoverTs > FAILOVER_RESET_MS then
    { st with active := 0 }
  else st

/-- Translation of `failover` (osrm.ts lines 28–34). -/
def failoverStep (now : ℤ) (st : OsrmState) : OsrmState :=
  if st.active < OSRM_SERVER_COUNT - 1 then ⟨st.active + 1, now⟩ else st

/-- Translation of `osrmFetch` (osrm.ts lines 40–68): reset the failover
state if the cool-down expired, try the active server; on an exception, if a
further server exists, fail over and retry that one once, else rethrow. -/
def osrmFetchModel (beh : ℕ → ServerOutcome) (now : ℤ) (st : OsrmState) :
    Except Unit ℕ × OsrmState :=
  let st1 := resetIfExpired now st
  match osrmTry beh st1.active with
  | .ok n => (.ok n, st1)
  | .error _ =>
    if st1.active < OSRM_SERVER_COUNT - 1 then
      let st2 := failoverStep now st1
      (osrmTry beh st2.active, st2)
    else (.error (), st1)

/-- Concrete distance function for witness evaluation: the L1 distance in
degree space (any `Hav` instance works for the parametric theorems; this one
is exactly computable). -/
def havDemo : Hav := fun la lo la' lo' => |la - la'| + |lo - lo'|

/-- Concrete 101-point route along the equator used by witnesses. -/
def c5Coords : List Coord := (List.range 101).map (fun k => ⟨(k : ℚ), 0⟩)

/-- Concrete speed-tagged way at a given longitude. -/
def c5Way (speedStr : String) (lon : ℚ) : OverpassElement :=
  { etype := "way", id := 1, lat := none, lon := none,
    tags := some [("maxspeed", speedStr)], geometry := some [⟨0, lon⟩] }

/-- Concrete element list: a 25 mph way at route index 0 and a 55 mph way at
route index 100. -/
def c5Elems : List OverpassElement := [c5Way "25" 0, c5Way "55" 100]

/-- Arbitrary floorability input with a chosen total score, used as concrete
pipeline input in witnesses and counterexamples. -/
def demoFloor (t : ℤ) : FloorabilityResult :=
  { totalScore := t
    rawScore := 0
    events := []
    speedDeltaScore := 0
    signalLaunchScore := 0
    rampMergeScore := 0
    runwayScore := 0
    roadQualityScore := 0
    bestMoment := ""
    floorItCount := 0 }

/-- Concrete one-mile route with a chosen duration in seconds and no
geometry. -/
def demoRouteDur (d : ℚ) : MapboxRoute :=
  { distance := 160934/100, duration := d, coords := [], legs := [],
    weight := d, weightName := "duration" }

/-- Concrete scored loop with total score 30 (clears the spec's threshold). -/
def c1HighLoop : LoopRouteE := mkScoredLoop 0 ⟨0, 0⟩ (demoRouteDur 600) [] (demoFloor 30)

/-- Concrete scored loop with total score 10 (below the spec's threshold). -/
def c1LowLoop : LoopRouteE := mkScoredLoop 1 ⟨0, 0⟩ (demoRouteDur 600) [] (demoFloor 10)

/-- Head of the concrete ranked list, used to instantiate membership
hypotheses. -/
def c1RankedHead : LoopRouteE :=
  (rankLoops [c1HighLoop, c1LowLoop]).headD c1LowLoop

/-- Two concrete scored loops with equal durations and distinct scores. -/
def c4LoopA : LoopRouteE := mkScoredLoop 0 ⟨0, 0⟩ (demoRouteDur 600) [] (demoFloor 50)

/-- Second loop of the `isFastest` tie. -/
def c4LoopB : LoopRouteE := mkScoredLoop 1 ⟨0, 0⟩ (demoRouteDur 600) [] (demoFloor 40)

/-- Head of the ranked tie list, used to instantiate membership
hypotheses. -/
def c4RankedHead : LoopRouteE :=
  (rankLoops [c4LoopA, c4LoopB]).headD c4LoopA

/-- Concrete square loop, 5 coordinates, closing on its start. -/
def sqLoop : List Coord := [⟨0, 0⟩, ⟨1, 0⟩, ⟨1, 1⟩, ⟨0, 1⟩, ⟨0, 0⟩]

/-- Concrete route following `sqLoop`. -/
def c2Route : MapboxRoute :=
  { distance := 160934/100, duration := 600, coords := sqLoop, legs := [],
    weight := 600, weightName := "duration" }

/-- Candidate at 0.45× the target duration (inside the spec's claimed
`[0.4, 2.2]` window, outside the code's `[0.5, 1.8]`). -/
def c3CandA : LoopCand := ⟨demoRouteDur 810, []⟩

/-- Candidate exactly at the target duration. -/
def c3CandB : LoopCand := ⟨demoRouteDur 1800, []⟩

/-- Candidate at 3× the target duration (outside every window). -/
def c3CandC : LoopCand := ⟨demoRouteDur 5400, []⟩

/-- Twelve-point out-and-back polyline (full overlap), witness input. -/
def c8OutBack : List Coord :=
  [⟨0, 0⟩, ⟨1, 0⟩, ⟨2, 0⟩, ⟨3, 0⟩, ⟨4, 0⟩, ⟨5, 0⟩,
   ⟨5, 0⟩, ⟨4, 0⟩, ⟨3, 0⟩, ⟨2, 0⟩, ⟨1, 0⟩, ⟨0, 0⟩]

/-- Concrete server behavior: the primary answers 503, the fallback 404. -/
def behDemo : ℕ → ServerOutcome := fun i => if i = 0 then .status 503 else .status 404

/-- Concrete server behavior: every server rejects. -/
def behFail : ℕ → ServerOutcome := fun _ => .netError

/-- Concrete failover state: primary active. -/
def stDemo : OsrmState := ⟨0, 0⟩

/-- Concrete failover state: fallback active, recent failover. -/
def stDemo1 : OsrmState := ⟨1, 0⟩

/-- Constant route namer standing in for the external `routeNamer.ts`. -/
def namerConst : MapboxRoute → ℕ → Bool → Bool → String := fun _ _ _ _ => ""

/-- Constant highlight generator standing in for the external
`routeNamer.ts`. -/
def highlighterConst : MapboxRoute → List String := fun _ => []

theorem ordInsertAsc_perm {α β : Type} [LinearOrder β] (key : α → β) (a : α)
    (l : List α) : List.Perm (ordInsertAsc key a l) (a :: l) := by
  induction l with
  | nil => simp [ordInsertAsc]
  | cons b t ih =>
    by_cases hab : key a ≤ key b
    · simp [ordInsertAsc, hab]
    · simp only [ordInsertAsc, if_neg hab]
      exact (ih.cons b).trans (List.Perm.swap a b t)

theorem sortByKeyAsc_perm {α β : Type} [LinearOrder β] (key : α → β)
    (l : List α) : List.Perm (sortByKeyAsc key l) l := by
  induction l with
  | nil => simp [sortByKeyAsc]
  | cons a t ih =>
    exact (ordInsertAsc_perm key a (sortByKeyAsc key t)).trans (ih.cons a)

theorem ordInsertAsc_pairwise {α β : Type} [LinearOrder β] (key : α → β)
    (a : α) (l : List α) (h : l.Pairwise (fun x y => key x ≤ key y)) :
    (ordInsertAsc key a l).Pairwise (fun x y => key x ≤ key y) := by
  induction l with
  | nil => simp [ordInsertAsc]
  | cons b t ih =>
    rw [List.pairwise_cons] at h
    by_cases hab : key a ≤ key b
    · simp only [ordInsertAsc, if_pos hab]
      refine List.Pairwise.cons ?_ (List.pairwise_cons.mpr h)
      intro x hx
      rcases List.mem_cons.mp hx with rfl | hx'
      · exact hab
      · exact le_trans hab (h.1 x hx')
    · simp only [ordInsertAsc, if_neg hab]
      refine List.Pairwise.cons ?_ (ih h.2)
      intro x hx
      have hx' := (ordInsertAsc_perm key a t).mem_iff.mp hx
      rcases List.mem_cons.mp hx' with rfl | hx''
      · exact le_of_not_le hab
      · exact h.1 x hx''

theorem sortByKeyAsc_pairwise {α β : Type} [LinearOrder β] (key : α → β)
    (l : List α) :
    (sortByKeyAsc key l).Pairwise (fun x y => key x ≤ key y) := by
  induction l with
  | nil => simp [sortByKeyAsc]
  | cons a t ih => exact ordInsertAsc_pairwise key a _ ih

theorem ordInsertDesc_perm {α β : Type} [LinearOrder β] (key : α → β) (a : α)
    (l : List α) : List.Perm (ordInsertDesc key a l) (a :: l) := by
  induction l with
  | nil => simp [ordInsertDesc]
  | cons b t ih =>
    by_cases hab : key b ≤ key a
    · simp [ordInsertDesc, hab]
    · simp only [ordInsertDesc, if_neg hab]
      exact (ih.cons b).trans (List.Perm.swap a b t)

theorem sortByKeyDesc_perm {α β : Type} [LinearOrder β] (key : α → β)
    (l : List α) : List.Perm (sortByKeyDesc key l) l := by
  induction l with
  | nil => simp [sortByKeyDesc]
  | cons a t ih =>
    exact (ordInsertDesc_perm key a (sortByKeyDesc key t)).trans (ih.cons a)

theorem ordInsertDesc_pairwise {α β : Type} [LinearOrder β] (key : α → β)
    (a : α) (l : List α) (h : l.Pairwise (fun x y => key y ≤ key x)) :
    (ordInsertDesc key a l).Pairwise (fun x y => key y ≤ key x) := by
  induction l with
  | nil => simp [ordInsertDesc]
  | cons b t ih =>
    rw [List.pairwise_cons] at h
    by_cases hab : key b ≤ key a
    · simp only [ordInsertDesc, if_pos hab]
      refine List.Pairwise.cons ?_ (List.pairwise_cons.mpr h)
      intro x hx
      rcases List.mem_cons.mp hx with rfl | hx'
      · exact hab
      · exact le_trans (h.1 x hx') hab
    · simp only [ordInsertDesc, if_neg hab]
      refine List.Pairwise.cons ?_ (ih h.2)
      intro x hx
      have hx' := (ordInsertDesc_perm key a t).mem_iff.mp hx
      rcases List.mem_cons.mp hx' with rfl | hx''
      · exact le_of_not_le hab
      · exact h.1 x hx''

theorem sortByKeyDesc_pairwise {α β : Type} [LinearOrder β] (key : α → β)
    (l : List α) :
    (sortByKeyDesc key l).Pairwise (fun x y => key y ≤ key x) := by
  induction l with
  | nil => simp [sortByKeyDesc]
  | cons a t ih => exact ordInsertDesc_pairwise key a _ ih

theorem foldl_min_le_init {α : Type} (f : α → ℤ) (xs : List α) (init : ℤ) :
    xs.foldl (fun m r => min m (f r)) init ≤ init := by
  induction xs generalizing init with
  | nil => simp
  | cons x t ih =>
    simp only [List.foldl_cons]
    exact le_trans (ih _) (min_le_left _ _)

theorem foldl_min_le_mem {α : Type} (f : α → ℤ) (xs : List α) (init : ℤ)
    (a : α) (ha : a ∈ xs) :
    xs.foldl (fun m r => min m (f r)) init ≤ f a := by
  induction xs generalizing init with
  | nil => cases ha
  | cons x t ih =>
    simp only [List.foldl_cons]
    rcases List.mem_cons.mp ha with rfl | ha'
    · exact le_trans (foldl_min_le_init f t _) (min_le_right _ _)
    · exact ih _ ha'

theorem snd_mem_of_mem_enumFrom {α : Type} (l : List α) (n : ℕ) (p : ℕ × α)
    (hp : p ∈ l.enumFrom n) : p.2 ∈ l := by
  induction l generalizing n with
  | nil => cases hp
  | cons x t ih =>
    rcases List.mem_cons.mp hp with h | h
    · rw [h]
      exact List.mem_cons_self _ _
    · exact List.mem_cons_of_mem _ (ih _ h)

theorem map_comp_enumFrom {α β : Type} (g : ℕ × α → β) (f : α → β)
    (hg : ∀ n a, g (n, a) = f a) (l : List α) (n : ℕ) :
    (l.enumFrom n).map g = l.map f := by
  induction l generalizing n with
  | nil => rfl
  | cons x t ih =>
    simp only [List.enumFrom, List.map_cons]
    rw [hg, ih]

theorem rankLoops_length (scored : List LoopRouteE) :
    (rankLoops scored).length = min scored.length 5 := by
  simp only [rankLoops]
  rw [List.length_take, List.length_map, List.enum_length, List.length_map,
    (sortByKeyDesc_perm _ scored).length_eq, Nat.min_comm]

theorem rankLoops_score_map (scored : List LoopRouteE) :
    (rankLoops scored).map (fun r => r.floorability.totalScore)
      = ((sortByKeyDesc (fun r => r.floorability.totalScore) scored).map
          (fun r => r.floorability.totalScore)).take 5 := by
  simp only [rankLoops]
  rw [List.map_take]
  congr 1
  rw [List.map_map, List.enum]
  rw [map_comp_enumFrom _ (fun r => r.floorability.totalScore)
    (fun n a => rfl)]
  rw [List.map_map]
  rfl

theorem rankLoops_score_sorted (scored : List LoopRouteE) :
    ((rankLoops scored).map (fun r => r.floorability.totalScore)).Pairwise
      (fun a b => b ≤ a) := by
  rw [rankLoops_score_map]
  exact ((List.pairwise_map.mpr
    (sortByKeyDesc_pairwise (fun r => r.floorability.totalScore) scored)).sublist
    (List.take_sublist _ _))

theorem mem_rankLoops_spec (scored : List LoopRouteE) (r : LoopRouteE)
    (hr : r ∈ rankLoops scored) :
    ∃ s ∈ sortByKeyDesc (fun x => x.floorability.totalScore) scored,
      r.durationMin = s.durationMin ∧ r.floorability = s.floorability
      ∧ r.highlights = s.highlights
      ∧ r.deltaMin = s.durationMin - rankShortest scored
      ∧ r.isFastest = decide (s.durationMin = rankShortest scored) := by
  simp only [rankLoops] at hr
  have hr' := List.mem_of_mem_take hr
  rcases List.mem_map.mp hr' with ⟨p, hp, hpr⟩
  rw [List.enum] at hp
  have hp2 := snd_mem_of_mem_enumFrom _ _ _ hp
  rcases List.mem_map.mp hp2 with ⟨s, hs, hsp⟩
  refine ⟨s, hs, ?_, ?_, ?_, ?_, ?_⟩ <;> rw [← hpr, ← hsp]

theorem rankShortest_le (scored : List LoopRouteE) (s : LoopRouteE)
    (hs : s ∈ sortByKeyDesc (fun r => r.floorability.totalScore) scored) :
    rankShortest scored ≤ s.durationMin := by
  unfold rankShortest
  cases h : sortByKeyDesc (fun r => r.floorability.totalScore) scored with
  | nil => rw [h] at hs; cases hs
  | cons x xs =>
    rw [h] at hs
    simp only []
    rcases List.mem_cons.mp hs with rfl | hs'
    · exact foldl_min_le_init _ xs _
    · exact foldl_min_le_mem _ xs _ _ hs'

/-- Claim C1 (amended): in the final ranking step of the loop generator,
candidates are sorted by `totalScore` descending and the top `min(n, 5)` are
returned with no minimum-score threshold — a candidate scoring below 25 is
kept even when another clears 25, every returned route is one of the scored
candidates (same floorability, duration and highlights), and no
"limited opportunity" marker exists; all-low scores are surfaced separately
by the store's `lowFloorabilityWarning` flag. -/
theorem c1_final_ranking (scored : List LoopRouteE) (r : LoopRouteE)
    (hr : r ∈ rankLoops scored) :
    (rankLoops scored).length = min scored.length 5
    ∧ ((rankLoops scored).map (fun x => x.floorability.totalScore)).Pairwise
        (fun a b => b ≤ a)
    ∧ ∃ c ∈ scored, r.floorability = c.floorability
        ∧ r.durationMin = c.durationMin ∧ r.highlights = c.highlights := by
  refine ⟨rankLoops_length scored, rankLoops_score_sorted scored, ?_⟩
  rcases mem_rankLoops_spec scored r hr with ⟨s, hs, h1, h2, h3, _, _⟩
  exact ⟨s, (sortByKeyDesc_perm _ scored).mem_iff.mp hs, h2, h1, h3⟩

/-- Witness for C1: the two-candidate list with scores 30 and 10, ranked. -/
theorem c1_final_ranking_witness :
    (rankLoops [c1HighLoop, c1LowLoop]).length
        = min ([c1HighLoop, c1LowLoop] : List LoopRouteE).length 5
    ∧ ((rankLoops [c1HighLoop, c1LowLoop]).map
        (fun x => x.floorability.totalScore)).Pairwise (fun a b => b ≤ a)
    ∧ ∃ c ∈ [c1HighLoop, c1LowLoop], c1RankedHead.floorability = c.floorability
        ∧ c1RankedHead.durationMin = c.durationMin
        ∧ c1RankedHead.highlights = c.highlights :=
  c1_final_ranking [c1HighLoop, c1LowLoop] c1RankedHead (by decide!)

/-- Counterexample to C1 as stated: ranking candidates scoring 30 and 10
keeps the sub-25 candidate (nothing is dropped), and the sole returned route
of an all-below-25 run carries no "limited opportunity" marker in its
highlight list. -/
theorem c1_threshold_counterexample :
    (rankLoops [c1HighLoop, c1LowLoop]).map (fun r => r.floorability.totalScore)
        = [30, 10]
    ∧ (rankLoops [c1LowLoop]).map (fun r => r.highlights)
        = [["✅ Unique outbound & return roads", "~10 min loop"]] := by
  decide!

/-- Claim C4 (amended): every loop-generation ranking returns at most 5
routes, each with `deltaMin ≥ 0` and `totalScore` non-increasing by rank, and
a returned route has `isFastest = true` exactly when its `durationMin` equals
the minimum `durationMin` over all scored candidates — so several routes tie
as fastest when durations coincide, rather than exactly one. -/
theorem c4_ranked_output (scored : List LoopRouteE) (r : LoopRouteE)
    (hr : r ∈ rankLoops scored) :
    (rankLoops scored).length ≤ 5
    ∧ 0 ≤ r.deltaMin
    ∧ (r.isFastest = true ↔ r.durationMin = rankShortest scored)
    ∧ ((rankLoops scored).map (fun x => x.floorability.totalScore)).Pairwise
        (fun a b => b ≤ a) := by
  rcases mem_rankLoops_spec scored r hr with ⟨s, hs, h1, _, _, h4, h5⟩
  refine ⟨?_, ?_, ?_, rankLoops_score_sorted scored⟩
  · rw [rankLoops_length]
    exact min_le_right _ _
  · rw [h4]
    have := rankShortest_le scored s hs
    omega
  · rw [h5, h1]
    simp

/-- Witness for C4: the ranked pair of equal-duration candidates. -/
theorem c4_ranked_output_witness :
    (rankLoops [c4LoopA, c4LoopB]).length ≤ 5
    ∧ 0 ≤ c4RankedHead.deltaMin
    ∧ (c4RankedHead.isFastest = true
        ↔ c4RankedHead.durationMin = rankShortest [c4LoopA, c4LoopB])
    ∧ ((rankLoops [c4LoopA, c4LoopB]).map
        (fun x => x.floorability.totalScore)).Pairwise (fun a b => b ≤ a) :=
  c4_ranked_output [c4LoopA, c4LoopB] c4RankedHead (by decide!)

/-- Counterexample to C4 as stated: two candidates with equal `durationMin`
both come back with `isFastest = true`, so "exactly one returned route has
`isFastest = true`" fails. -/
theorem c4_isfastest_counterexample :
    ((rankLoops [c4LoopA, c4LoopB]).filter (fun r => r.isFastest)).length = 2 := by
  decide!

theorem jsRound_intCast (t : ℤ) : jsRound (t : ℚ) = t := by
  rw [jsRound, Int.floor_eq_iff]
  constructor
  · linarith
  · linarith

theorem jsRound_mono {a b : ℚ} (h : a ≤ b) : jsRound a ≤ jsRound b := by
  exact Int.floor_le_floor (by linarith)

theorem countP_mod_range (s : ℕ) (hs : 0 < s) (n : ℕ) :
    (List.range n).countP (fun i => decide (i % s = 0)) = (n + s - 1) / s := by
  induction n with
  | zero =>
    simp only [List.range_zero, List.countP_nil, Nat.zero_add]
    exact (Nat.div_eq_of_lt (by omega)).symm
  | succ n ih =>
    rw [List.range_succ, List.countP_append, ih]
    have h1 : n + 1 + s - 1 = n + s := by omega
    have h2 : n + s = (n + s - 1) + 1 := by omega
    rw [h1, h2, Nat.succ_div, ← h2]
    have h4 : (s ∣ n + s) = (n % s = 0) := propext (by
      rw [Nat.dvd_add_self_right, Nat.dvd_iff_mod_eq_zero])
    simp only [h4, List.countP_cons, List.countP_nil]
    simp

theorem sampleEvery_length {α : Type} (l : List α) (step : ℕ) (hs : 0 < step) :
    (sampleEvery l step).length = (l.length + step - 1) / step := by
  rw [sampleEvery, List.length_map, ← List.countP_eq_length_filter]
  have h1 : (l.enum).countP (fun p => decide (p.1 % step = 0))
      = ((l.enum).map Prod.fst).countP (fun i => decide (i % step = 0)) := by
    rw [List.countP_map]
    rfl
  rw [h1, List.enum_map_fst, countP_mod_range step hs]

theorem calculateOverlapPenalty_nonneg (coords : List Coord) :
    0 ≤ calculateOverlapPenalty coords := by
  simp only [calculateOverlapPenalty]
  split
  · exact le_refl 0
  · split
    · positivity
    · exact le_refl 0

theorem calculateOverlapPenalty_le_one (coords : List Coord) :
    calculateOverlapPenalty coords ≤ 1 := by
  simp only [calculateOverlapPenalty]
  split
  · norm_num
  · set outbound := coords.take (coords.length / 2) with hout
    set step := max 1 (outbound.length / 50) with hstep
    have hs : 0 < step := lt_of_lt_of_le one_pos (le_max_left _ _)
    split
    · rename_i hpos
      rw [div_le_one (by exact_mod_cast hpos)]
      have hcount : ∀ (q : Coord → Bool),
          ((sampleEvery outbound step).filter q).length
            ≤ (sampleEvery outbound step).length :=
        fun q => List.length_filter_le q _
      have hlen2 := sampleEvery_length outbound step hs
      exact_mod_cast le_trans (hcount _) (le_of_eq hlen2)
    · norm_num

/-- Claim C2 (amended): after the initial floorability computation exactly one
post-hoc adjustment is applied, once — when the candidate's `overlapPenalty`
exceeds 0.1 its `totalScore` is replaced by
`round(totalScore × (1 − overlapPenalty × 0.3))`, which never increases a
nonnegative score; the pipeline computes no circularity and applies no
circularity bonus. -/
theorem c2_single_adjustment (i : ℕ) (start : Coord) (route : MapboxRoute)
    (wps : List Coord) (f0 : FloorabilityResult) (h0 : 0 ≤ f0.totalScore) :
    (mkScoredLoop i start route wps f0).floorability.totalScore
      = applyOverlapPenaltyAdjust f0.totalScore
          (calculateOverlapPenalty route.coords)
    ∧ (mkScoredLoop i start route wps f0).floorability.totalScore
        ≤ f0.totalScore := by
  have hov0 := calculateOverlapPenalty_nonneg route.coords
  have hov1 := calculateOverlapPenalty_le_one route.coords
  by_cases h : calculateOverlapPenalty route.coords > 1/10
  · constructor
    · simp only [mkScoredLoop, applyOverlapPenaltyAdjust, if_pos h]
    · simp only [mkScoredLoop, if_pos h]
      have hmul : (f0.totalScore : ℚ)
          * (1 - calculateOverlapPenalty route.coords * (3/10))
          ≤ ((f0.totalScore : ℤ) : ℚ) := by
        have ht : (0 : ℚ) ≤ (f0.totalScore : ℚ) := by exact_mod_cast h0
        nlinarith
      exact le_trans (jsRound_mono hmul) (le_of_eq (jsRound_intCast _))
  · constructor
    · simp only [mkScoredLoop, applyOverlapPenaltyAdjust, if_neg h]
    · simp only [mkScoredLoop, if_neg h]
      exact le_refl _

/-- Witness for C2: a 50-point floorability over the square loop (overlap
penalty 0). -/
theorem c2_single_adjustment_witness :
    (mkScoredLoop 0 ⟨0, 0⟩ c2Route [] (demoFloor 50)).floorability.totalScore
      = applyOverlapPenaltyAdjust (demoFloor 50).totalScore
          (calculateOverlapPenalty c2Route.coords)
    ∧ (mkScoredLoop 0 ⟨0, 0⟩ c2Route [] (demoFloor 50)).floorability.totalScore
        ≤ (demoFloor 50).totalScore :=
  c2_single_adjustment 0 ⟨0, 0⟩ c2Route [] (demoFloor 50) (by decide)

/-- Counterexample to C2 as stated: the square loop has spec-circularity 1
(> 0.4), so the claimed pair of adjustments would raise a score of 50 to 53,
but the code's scoring step leaves it at 50 — no circularity bonus exists. -/
theorem c2_circularity_counterexample :
    circularitySpec 69 sqLoop > 2/5
    ∧ (mkScoredLoop 0 ⟨0, 0⟩ c2Route [] (demoFloor 50)).floorability.totalScore
        = 50
    ∧ postAdjustSpec 50 (calculateOverlapPenalty sqLoop)
        (circularitySpec 69 sqLoop) = 53 := by
  refine ⟨by decide!, by decide!, by decide!⟩

/-- Claim C3 (amended): the duration pre-filter keeps exactly the candidates
with duration in the closed interval `[0.5×target, 1.8×target]` that also pass
the hard overlap cut (penalty ≤ 0.25); when that set is empty, fallback tiers
(overlap ≤ 0.4 in the same window, then the three lowest-overlap candidates in
`[0.25×target, 2.16×target]`) may keep a nonempty subset of the candidates,
and when every tier is empty the run fails with an error — the filter can
empty the pool. -/
theorem c3_duration_filter (targetSec : ℚ) (cands kept : List LoopCand)
    (hk : filterCandidates targetSec cands = .ok kept) :
    kept ≠ [] ∧ (∀ c ∈ kept, c ∈ cands)
    ∧ ((cands.filter (fun c =>
          decide (targetSec * (5/10) ≤ c.route.duration)
          && decide (c.route.duration ≤ targetSec * (18/10)))).filter
          (fun c => decide (calculateOverlapPenalty c.route.coords ≤ 25/100))
          ≠ []
        → kept = (cands.filter (fun c =>
            decide (targetSec * (5/10) ≤ c.route.duration)
            && decide (c.route.duration ≤ targetSec * (18/10)))).filter
            (fun c => decide (calculateOverlapPenalty c.route.coords ≤ 25/100))) := by
  simp only [filterCandidates] at hk
  split at hk
  · rename_i hne
    injection hk with hk
    subst hk
    refine ⟨hne, ?_, fun _ => rfl⟩
    intro c hc
    exact List.mem_of_mem_filter (List.mem_of_mem_filter hc)
  · rename_i hemp
    rw [not_not] at hemp
    split at hk
    · rename_i hne2
      injection hk with hk
      subst hk
      refine ⟨hne2, ?_, fun hne3 => absurd hemp hne3⟩
      intro c hc
      exact List.mem_of_mem_filter hc
    · split at hk
      · cases hk
      · rename_i hne3
        injection hk with hk
        subst hk
        refine ⟨hne3, ?_, fun hne4 => absurd hemp hne4⟩
        intro c hc
        have hc1 := List.mem_of_mem_take hc
        have hc2 := (sortByKeyAsc_perm _ _).mem_iff.mp hc1
        exact List.mem_of_mem_filter hc2

/-- Witness for C3: filtering the two concrete candidates keeps exactly the
in-window one. -/
theorem c3_duration_filter_witness :
    ([c3CandB] : List LoopCand) ≠ []
    ∧ (∀ c ∈ ([c3CandB] : List LoopCand), c ∈ [c3CandA, c3CandB])
    ∧ (([c3CandA, c3CandB].filter (fun c =>
          decide ((1800 : ℚ) * (5/10) ≤ c.route.duration)
          && decide (c.route.duration ≤ (1800 : ℚ) * (18/10)))).filter
          (fun c => decide (calculateOverlapPenalty c.route.coords ≤ 25/100))
          ≠ []
        → [c3CandB] = ([c3CandA, c3CandB].filter (fun c =>
            decide ((1800 : ℚ) * (5/10) ≤ c.route.duration)
            && decide (c.route.duration ≤ (1800 : ℚ) * (18/10)))).filter
            (fun c => decide (calculateOverlapPenalty c.route.coords ≤ 25/100))) :=
  c3_duration_filter 1800 [c3CandA, c3CandB] [c3CandB] (by decide!)

/-- Counterexample to C3 as stated: a candidate at 0.45×target (inside the
claimed `[0.4×target, 2.2×target]` window) is dropped while another survives,
so the kept set is not the claimed interval; and a single candidate at
3×target empties the pool entirely — the filter errors instead of keeping
all. -/
theorem c3_interval_counterexample :
    filterCandidates 1800 [c3CandA, c3CandB] = .ok [c3CandB]
    ∧ (filterCandidates 1800 [c3CandC]).isOk = false := by
  refine ⟨by decide!, by decide!⟩

theorem foldl_pres {α β : Type} (f : List β → α → List β) (P : β → Prop)
    (hf : ∀ acc a e, e ∈ f acc a → e ∈ acc ∨ P e) (l : List α)
    (acc : List β) (hacc : ∀ e ∈ acc, P e) : ∀ e ∈ l.foldl f acc, P e := by
  induction l generalizing acc with
  | nil => exact hacc
  | cons x t ih =>
    intro e he
    refine ih (f acc x) (fun e' he' => ?_) e he
    rcases hf acc x e' he' with h | h
    · exact hacc e' h
    · exact h

theorem signalStep_types (hav : Hav) (coords : List Coord)
    (signals : List OverpassElement) (fp : List SpeedEntry)
    (evs : List FloorItEvent) (s : OverpassElement) :
    ∀ e ∈ signalStep hav coords signals fp evs s,
      e ∈ evs ∨ e.type = EvType.signal_launch := by
  intro e he
  simp only [signalStep] at he
  split at he
  · split at he
    · exact Or.inl he
    · split at he
      · exact Or.inl he
      · split at he
        · exact Or.inl he
        · split at he
          · exact Or.inl he
          · rcases List.mem_append.mp he with h | h
            · exact Or.inl h
            · rw [List.mem_singleton.mp h]
              exact Or.inr rfl
  · exact Or.inl he

theorem rampStep_types (hav : Hav) (coords : List Coord)
    (evs : List FloorItEvent) (r : OverpassElement) :
    ∀ e ∈ rampStep hav coords evs r, e ∈ evs ∨ e.type = EvType.ramp_merge := by
  intro e he
  simp only [rampStep] at he
  split at he
  · exact Or.inl he
  · split at he
    · exact Or.inl he
    · split at he
      · exact Or.inl he
      · rcases List.mem_append.mp he with h | h
        · exact Or.inl h
        · rw [List.mem_singleton.mp h]
          exact Or.inr rfl

theorem signalEvents_types (hav : Hav) (coords : List Coord)
    (signals : List OverpassElement) (fp : List SpeedEntry) :
    ∀ e ∈ signalEvents hav coords signals fp,
      e.type = EvType.signal_launch := by
  exact foldl_pres _ _ (signalStep_types hav coords signals fp) signals []
    (fun e he => absurd he (List.not_mem_nil e))

theorem rampEvents_types (hav : Hav) (coords : List Coord)
    (ramps : List OverpassElement) :
    ∀ e ∈ rampEvents hav coords ramps, e.type = EvType.ramp_merge := by
  exact foldl_pres _ _ (rampStep_types hav coords) ramps []
    (fun e he => absurd he (List.not_mem_nil e))

theorem speedDeltaLoop_types (hav : Hav) (coords : List Coord)
    (prev : SpeedEntry) (l : List SpeedEntry) :
    ∀ e ∈ speedDeltaLoop hav coords prev l, e.type = EvType.speed_delta := by
  induction l generalizing prev with
  | nil => intro e he; cases he
  | cons curr rest ih =>
    intro e he
    simp only [speedDeltaLoop] at he
    split at he
    · rcases List.mem_cons.mp he with h | h
      · rw [h]
      · exact ih curr e h
    · exact ih curr e he

theorem speedDeltaEvents_types (hav : Hav) (coords : List Coord)
    (fp : List SpeedEntry) :
    ∀ e ∈ speedDeltaEvents hav coords fp, e.type = EvType.speed_delta := by
  cases fp with
  | nil => intro e he; cases he
  | cons p rest => exact speedDeltaLoop_types hav coords p rest

theorem analyze_speed_filter (hav : Hav) (coords : List Coord)
    (elements : List OverpassElement) (legs : Option (List RouteLeg)) :
    List.Perm
      ((analyzeFloorability hav coords elements legs).events.filter
        (fun e => e.type == EvType.speed_delta))
      (speedDeltaEvents hav coords (finalProfileOf hav coords elements legs)) := by
  have hev : (analyzeFloorability hav coords elements legs).events
      = sortByKeyDesc (fun e => e.score)
          (speedDeltaEvents hav coords (finalProfileOf hav coords elements legs)
            ++ signalEvents hav coords
                (elements.filter (fun el => el.etype == "node"
                  && tagOf el "highway" == some "traffic_signals"))
                (finalProfileOf hav coords elements legs)
            ++ rampEvents hav coords
                (elements.filter (fun el => el.etype == "way"
                  && tagOf el "highway" == some "motorway_link"
                  && !(el.geometry.getD []).isEmpty))) := rfl
  rw [hev]
  have hperm := (sortByKeyDesc_perm (fun e : FloorItEvent => e.score)
    (speedDeltaEvents hav coords (finalProfileOf hav coords elements legs)
      ++ signalEvents hav coords
          (elements.filter (fun el => el.etype == "node"
            && tagOf el "highway" == some "traffic_signals"))
          (finalProfileOf hav coords elements legs)
      ++ rampEvents hav coords
          (elements.filter (fun el => el.etype == "way"
            && tagOf el "highway" == some "motorway_link"
            && !(el.geometry.getD []).isEmpty)))).filter
    (fun e => e.type == EvType.speed_delta)
  rw [List.filter_append, List.filter_append] at hperm
  have hsig : (signalEvents hav coords
      (elements.filter (fun el => el.etype == "node"
        && tagOf el "highway" == some "traffic_signals"))
      (finalProfileOf hav coords elements legs)).filter
      (fun e => e.type == EvType.speed_delta) = [] := by
    rw [List.filter_eq_nil_iff]
    intro e he
    have := signalEvents_types hav coords _ _ e he
    simp [this]
  have hramp : (rampEvents hav coords
      (elements.filter (fun el => el.etype == "way"
        && tagOf el "highway" == some "motorway_link"
        && !(el.geometry.getD []).isEmpty))).filter
      (fun e => e.type == EvType.speed_delta) = [] := by
    rw [List.filter_eq_nil_iff]
    intro e he
    have := rampEvents_types hav coords _ e he
    simp [this]
  have hsd : (speedDeltaEvents hav coords
      (finalProfileOf hav coords elements legs)).filter
      (fun e => e.type == EvType.speed_delta)
      = speedDeltaEvents hav coords (finalProfileOf hav coords elements legs) := by
    rw [List.filter_eq_self]
    intro e he
    have := speedDeltaEvents_types hav coords _ e he
    simp [this]
  rw [hsig, hramp, hsd, List.append_nil, List.append_nil] at hperm
  exact hperm

/-- Claim C5: a final speed profile with entries (index 0, 25 mph) and
(index 100, 55 mph) makes `analyzeFloorability` emit exactly one speed_delta
event, labeled "25→55 mph"; an adjacent profile pair whose speed rises by
9 mph emits no event, and a rise of exactly 10 mph emits one. -/
theorem c5_speed_delta_events (hav : Hav) (coords : List Coord)
    (elements : List OverpassElement) (legs : Option (List RouteLeg))
    (n1 hw1 n2 hw2 : String)
    (hp : finalProfileOf hav coords elements legs
        = [⟨0, 25, n1, hw1⟩, ⟨100, 55, n2, hw2⟩]) :
    ((analyzeFloorability hav coords elements legs).events.filter
        (fun e => e.type == EvType.speed_delta)).map (fun e => e.label)
      = ["25→55 mph"]
    ∧ (∀ (hav' : Hav) (coords' : List Coord) (i j : ℕ) (s : ℤ)
        (a b c d : String),
        speedDeltaEvents hav' coords' [⟨i, s, a, b⟩, ⟨j, s + 9, c, d⟩] = [])
    ∧ ∀ (hav' : Hav) (coords' : List Coord) (i j : ℕ) (s : ℤ)
        (a b c d : String),
        (speedDeltaEvents hav' coords'
          [⟨i, s, a, b⟩, ⟨j, s + 10, c, d⟩]).length = 1 := by
  refine ⟨?_, ?_, ?_⟩
  · have hperm := analyze_speed_filter hav coords elements legs
    rw [hp] at hperm
    obtain ⟨ev, hev, hlabel⟩ : ∃ ev,
        speedDeltaEvents hav coords [⟨0, 25, n1, hw1⟩, ⟨100, 55, n2, hw2⟩]
          = [ev] ∧ ev.label = "25→55 mph" := by
      simp only [speedDeltaEvents, speedDeltaLoop]
      norm_num
      decide!
    rw [hev] at hperm
    rw [List.perm_singleton.mp hperm, List.map_cons, List.map_nil, hlabel]
  · intro hav' coords' i j s a b c d
    simp only [speedDeltaEvents, speedDeltaLoop]
    rw [if_neg (by omega : ¬ (10 : ℤ) ≤ s + 9 - s)]
  · intro hav' coords' i j s a b c d
    simp only [speedDeltaEvents, speedDeltaLoop]
    rw [if_pos (by omega : (10 : ℤ) ≤ s + 10 - s)]
    rfl

/-- Witness for C5: the 101-point route with a 25 mph way at index 0 and a
55 mph way at index 100, plus concrete 9 mph and 10 mph profile pairs. -/
theorem c5_speed_delta_events_witness :
    ((analyzeFloorability havDemo c5Coords c5Elems none).events.filter
        (fun e => e.type == EvType.speed_delta)).map (fun e => e.label)
      = ["25→55 mph"]
    ∧ speedDeltaEvents havDemo [] [⟨0, 20, "a", "b"⟩, ⟨1, 20 + 9, "c", "d"⟩] = []
    ∧ (speedDeltaEvents havDemo []
        [⟨0, 20, "a", "b"⟩, ⟨1, 20 + 10, "c", "d"⟩]).length = 1 := by
  have h := c5_speed_delta_events havDemo c5Coords c5Elems none
    "unnamed" "road" "unnamed" "road" (by decide!)
  exact ⟨h.1, h.2.1 havDemo [] 0 1 20 "a" "b" "c" "d",
    h.2.2 havDemo [] 0 1 20 "a" "b" "c" "d"⟩

/-- Claim C6: with route legs present, the matcher rejects a
residential-tagged element named "Elm Street" near a route step named "I-87"
even within the proximity radius (for every speed value and route ref), and
accepts an element named "Taconic State Pkwy" against a route step named
"Taconic" via substring name match, for every element highway class and speed
satisfying the speed-sanity precondition. -/
theorem c6_matcher_accepts (d : ℚ) (hd : d ≤ 1/25) (routeRef : String)
    (speed : ℤ) (hw : String) (speed2 : ℤ)
    (hsan : (HIGH_SPEED_HIGHWAY_TYPES.contains hw
        && decide (speed2 < minCredibleSpeed hw)) = false) :
    speedWayAccept d "I-87" routeRef "Elm Street" "" "residential" speed = false
    ∧ speedWayAccept d "Taconic" "" "Taconic State Pkwy" "" hw speed2 = true := by
  have hnot : ¬ d > 1/25 := not_lt.mpr hd
  constructor
  · rw [speedWayAccept, if_neg hnot]
    have hnm : roadNamesMatch "Elm Street" "I-87" = false := by decide!
    simp only [acceptSpeedEntry]
    rw [hnm]
    rfl
  · rw [speedWayAccept, if_neg hnot]
    simp only [acceptSpeedEntry, isHighwayTypeCompatible]
    rw [hsan]
    have h2 : roadNamesMatch "Taconic State Pkwy" "Taconic" = true := by decide!
    rw [h2]
    have hM : isMajorRouteName "Taconic" "" = false := by decide!
    rw [hM]
    have hM2 : routeIsMajorName "Taconic" = false := by decide!
    rw [hM2]
    rfl

/-- Witness for C6: distance exactly at the proximity radius, a 25 mph
residential element in both scenarios. -/
theorem c6_matcher_accepts_witness :
    speedWayAccept (1/25) "I-87" "" "Elm Street" "" "residential" 25 = false
    ∧ speedWayAccept (1/25) "Taconic" "" "Taconic State Pkwy" "" "residential"
        25 = true :=
  c6_matcher_accepts (1/25) (le_refl _) "" 25 "residential" 25 (by decide)

/-- Claim C7 (amended): every loop route fetch failure — network error,
timeout, non-2xx status, malformed or empty payload — normalizes to `none`;
the point-to-point `fetchRoutes`, by contrast, surfaces each of those
failures as a thrown error, not a none result. -/
theorem c7_fetch_failures (out : FetchOutcome) (hf : isFetchFailure out = true)
    (namer : MapboxRoute → ℕ → Bool → Bool → String)
    (highlighter : MapboxRoute → List String) :
    fetchLoopRouteModel out = none
    ∧ ∃ e, fetchRoutesModel namer highlighter out = .error e := by
  cases out with
  | thrown => exact ⟨rfl, ⟨.upstream, rfl⟩⟩
  | response ok status body =>
    cases ok with
    | false => exact ⟨rfl, ⟨.httpStatus status, rfl⟩⟩
    | true =>
      cases body with
      | none => exact ⟨rfl, ⟨.malformedBody, rfl⟩⟩
      | some p =>
        simp only [isFetchFailure, Bool.not_true, Bool.false_or] at hf
        by_cases hc : p.code = "Ok"
        · have hrE : p.routes = [] := by
            simp only [hc, bne_self_eq_false, Bool.false_or] at hf
            exact List.isEmpty_iff.mp hf
          refine ⟨?_, ⟨.noRoutes, ?_⟩⟩
          · simp [fetchLoopRouteModel, hc, hrE]
          · simp [fetchRoutesModel, hc, hrE]
        · refine ⟨?_, ⟨.badCode p.code, ?_⟩⟩
          · simp [fetchLoopRouteModel, hc]
          · simp [fetchRoutesModel, hc]

/-- Witness for C7: a 404 response. -/
theorem c7_fetch_failures_witness :
    fetchLoopRouteModel (.response false 404 none) = none
    ∧ ∃ e, fetchRoutesModel namerConst highlighterConst
        (.response false 404 none) = .error e :=
  c7_fetch_failures (.response false 404 none) (by decide) namerConst
    highlighterConst

/-- Counterexample to C7 as stated: a non-2xx point-to-point fetch throws a
routing error instead of normalizing to a none result. -/
theorem c7_p2p_throws_counterexample :
    fetchRoutesModel namerConst highlighterConst (.response false 404 none)
      = .error (.httpStatus 404) := rfl

/-- Claim C8: `circularity` (modelled from the spec) is in [0,1] for every
coordinate sequence of length at least 3 and is 0 for shorter ones;
`calculateOverlapPenalty` is in [0,1] for every sequence of length at least
10 and is 0 for shorter ones. -/
theorem c8_geometry_bounds (lngScale : ℚ) (coords : List Coord) :
    (coords.length < 3 → circularitySpec lngScale coords = 0)
    ∧ (3 ≤ coords.length → 0 ≤ circularitySpec lngScale coords
        ∧ circularitySpec lngScale coords ≤ 1)
    ∧ (coords.length < 10 → calculateOverlapPenalty coords = 0)
    ∧ (10 ≤ coords.length → 0 ≤ calculateOverlapPenalty coords
        ∧ calculateOverlapPenalty coords ≤ 1) := by
  refine ⟨?_, ?_, ?_, fun _ => ⟨calculateOverlapPenalty_nonneg coords,
    calculateOverlapPenalty_le_one coords⟩⟩
  · intro h
    match coords, h with
    | [], _ => rfl
    | [_], _ => rfl
    | [_, _], _ => rfl
  · intro h
    match coords, h with
    | c0 :: c1 :: c2 :: rest, _ =>
      simp only [circularitySpec]
      split
      · exact ⟨le_refl 0, by norm_num⟩
      · split
        · exact ⟨le_refl 0, by norm_num⟩
        · rename_i hwh _
          push_neg at hwh
          have harea : (0 : ℚ) ≤ |shoelaceSum ((c0 :: c1 :: c2 :: rest).map
              (fun c => ((c.lng - (((c0 :: c1 :: c2 :: rest).map (fun c => c.lng)).foldl
                min c0.lng)) * lngScale,
                (c.lat - (((c0 :: c1 :: c2 :: rest).map (fun c => c.lat)).foldl
                min c0.lat)) * 69)))| / 2 := by positivity
          constructor
          · refine le_min (by norm_num) ?_
            exact div_nonneg harea (le_of_lt (mul_pos hwh.1 hwh.2))
          · exact min_le_left _ _
  · intro h
    simp only [calculateOverlapPenalty, if_pos h]

/-- Witness for C8: a two-point polyline (short cases), the square loop and
the out-and-back polyline (long cases). -/
theorem c8_geometry_bounds_witness :
    circularitySpec 69 [⟨0, 0⟩, ⟨1, 0⟩] = 0
    ∧ (0 ≤ circularitySpec 69 sqLoop ∧ circularitySpec 69 sqLoop ≤ 1)
    ∧ calculateOverlapPenalty [⟨0, 0⟩, ⟨1, 0⟩] = 0
    ∧ (0 ≤ calculateOverlapPenalty c8OutBack
        ∧ calculateOverlapPenalty c8OutBack ≤ 1) :=
  ⟨(c8_geometry_bounds 69 [⟨0, 0⟩, ⟨1, 0⟩]).1 (by decide!),
   (c8_geometry_bounds 69 sqLoop).2.1 (by decide!),
   (c8_geometry_bounds 69 [⟨0, 0⟩, ⟨1, 0⟩]).2.2.1 (by decide!),
   (c8_geometry_bounds 69 c8OutBack).2.2.2 (by decide!)⟩

theorem totalScoreOfRaws_mono {a a' b b' c c' d d' e e' : ℚ} (ha : a ≤ a')
    (hb : b ≤ b') (hc : c ≤ c') (hd : d ≤ d') (he : e ≤ e') :
    totalScoreOfRaws a b c d e ≤ totalScoreOfRaws a' b' c' d' e' := by
  simp only [totalScoreOfRaws]
  refine min_le_min (le_refl _) (jsRound_mono ?_)
  have hsum : a * (35/100) + b * (25/100) + c * (20/100) + d * (10/100)
      + e * (10/100)
      ≤ a' * (35/100) + b' * (25/100) + c' * (20/100) + d' * (10/100)
        + e' * (10/100) := by linarith
  have h150 : (0 : ℚ) < 150 := by norm_num
  exact mul_le_mul_of_nonneg_right ((div_le_div_iff_of_pos_right h150).mpr hsum)
    (by norm_num)

/-- Claim C9: holding the other four raw components fixed, the composite
total score of `analyzeFloorability` (`totalScoreOfRaws`) is non-decreasing
in each of the five raw components. -/
theorem c9_totalscore_monotone :
    (∀ a a' b c d e : ℚ, a ≤ a' →
      totalScoreOfRaws a b c d e ≤ totalScoreOfRaws a' b c d e)
    ∧ (∀ a b b' c d e : ℚ, b ≤ b' →
      totalScoreOfRaws a b c d e ≤ totalScoreOfRaws a b' c d e)
    ∧ (∀ a b c c' d e : ℚ, c ≤ c' →
      totalScoreOfRaws a b c d e ≤ totalScoreOfRaws a b c' d e)
    ∧ (∀ a b c d d' e : ℚ, d ≤ d' →
      totalScoreOfRaws a b c d e ≤ totalScoreOfRaws a b c d' e)
    ∧ ∀ a b c d e e' : ℚ, e ≤ e' →
      totalScoreOfRaws a b c d e ≤ totalScoreOfRaws a b c d e' := by
  refine ⟨fun a a' b c d e h => ?_, fun a b b' c d e h => ?_,
    fun a b c c' d e h => ?_, fun a b c d d' e h => ?_,
    fun a b c d e e' h => ?_⟩
  · exact totalScoreOfRaws_mono h le_rfl le_rfl le_rfl le_rfl
  · exact totalScoreOfRaws_mono le_rfl h le_rfl le_rfl le_rfl
  · exact totalScoreOfRaws_mono le_rfl le_rfl h le_rfl le_rfl
  · exact totalScoreOfRaws_mono le_rfl le_rfl le_rfl h le_rfl
  · exact totalScoreOfRaws_mono le_rfl le_rfl le_rfl le_rfl h

/-- Witness for C9: each component raised from 0 to 1 with the rest 0. -/
theorem c9_totalscore_monotone_witness :
    totalScoreOfRaws 0 0 0 0 0 ≤ totalScoreOfRaws 1 0 0 0 0
    ∧ totalScoreOfRaws 0 0 0 0 0 ≤ totalScoreOfRaws 0 1 0 0 0
    ∧ totalScoreOfRaws 0 0 0 0 0 ≤ totalScoreOfRaws 0 0 1 0 0
    ∧ totalScoreOfRaws 0 0 0 0 0 ≤ totalScoreOfRaws 0 0 0 1 0
    ∧ totalScoreOfRaws 0 0 0 0 0 ≤ totalScoreOfRaws 0 0 0 0 1 :=
  ⟨c9_totalscore_monotone.1 0 1 0 0 0 0 (by norm_num),
   c9_totalscore_monotone.2.1 0 0 1 0 0 0 (by norm_num),
   c9_totalscore_monotone.2.2.1 0 0 0 1 0 0 (by norm_num),
   c9_totalscore_monotone.2.2.2.1 0 0 0 0 1 0 (by norm_num),
   c9_totalscore_monotone.2.2.2.2 0 0 0 0 0 1 (by norm_num)⟩

/-- Claim C10: when the active server fails (rejection, timeout or a status
of at least 500), `osrmFetch` advances to the next server and retries once
within the same call, so a successful response — including a non-2xx status
below 500 — is returned as-is with no failover, and the caller sees an
exception only when the last server in the list also fails. -/
theorem c10_osrm_failover (beh : ℕ → ServerOutcome) (now : ℤ) (st : OsrmState)
    (hst : st.active < OSRM_SERVER_COUNT) :
    (∀ n, osrmTry beh (resetIfExpired now st).active = .ok n →
        osrmFetchModel beh now st = (.ok n, resetIfExpired now st))
    ∧ (osrmTry beh (resetIfExpired now st).active = .error ()
        → (resetIfExpired now st).active = 0
        → osrmFetchModel beh now st = (osrmTry beh 1, ⟨1, now⟩))
    ∧ ((osrmFetchModel beh now st).1.isOk = false
        → osrmTry beh 1 = .error ()) := by
  refine ⟨?_, ?_, ?_⟩
  · intro n h
    simp only [osrmFetchModel, h]
  · intro h h0
    simp only [osrmFetchModel, h]
    simp [h0, failoverStep, OSRM_SERVER_COUNT]
  · intro h
    cases h1 : osrmTry beh (resetIfExpired now st).active with
    | ok n =>
      have hm : osrmFetchModel beh now st = (.ok n, resetIfExpired now st) := by
        simp only [osrmFetchModel, h1]
      rw [hm] at h
      simp [Except.isOk, Except.toBool] at h
    | error e =>
      have hst1 : (resetIfExpired now st).active < 2 := by
        simp only [resetIfExpired]
        split
        · simp
        · simpa [OSRM_SERVER_COUNT] using hst
      by_cases h0 : (resetIfExpired now st).active = 0
      · cases e
        have hm : osrmFetchModel beh now st = (osrmTry beh 1, ⟨1, now⟩) := by
          simp only [osrmFetchModel, h1]
          simp [h0, failoverStep, OSRM_SERVER_COUNT]
        rw [hm] at h
        cases h2 : osrmTry beh 1 with
        | ok m =>
          rw [h2] at h
          simp [Except.isOk, Except.toBool] at h
        | error e2 =>
          cases e2
          rfl
      · have ha : (resetIfExpired now st).active = 1 := by omega
        rw [ha] at h1
        cases e
        exact h1

/-- Witness for C10: a 503 primary fails over to a 404 fallback which is
returned as-is; a fallback-active state returns its response directly; a
uniformly failing pair surfaces the exception. -/
theorem c10_osrm_failover_witness :
    osrmFetchModel behDemo 0 stDemo = (.ok 404, ⟨1, 0⟩)
    ∧ osrmFetchModel behDemo 0 stDemo1 = (.ok 404, stDemo1)
    ∧ osrmTry behFail 1 = .error () := by
  refine ⟨?_, ?_, ?_⟩
  · have h := (c10_osrm_failover behDemo 0 stDemo (by decide)).2.1
      (by decide) (by decide)
    rw [h]
    decide
  · have h := (c10_osrm_failover behDemo 0 stDemo1 (by decide)).1 404
      (by decide)
    rw [h]
    decide
  · exact (c10_osrm_failover behFail 0 stDemo (by decide)).2.2 (by decide)

end Hotfix
